import Mathlib

/-!
Verification development for the bulk-quoting core of the python-meds
repository: the drug-name normalization pipeline
(backend/app/services/drug_parser.py), the matching engine
(backend/app/services/matching_engine.py) and the price selector
(backend/app/services/bulk_quote_service.py), shallowly embedded in Lean.

Modelling conventions
  - Python strings are modelled as List Char; String literals are converted
    with String.data.
  - Python Decimal is modelled by the exact fraction type Dec below.
    Decimal arithmetic on the values produced by the parser (integer and
    decimal literals, one division guarded against a zero divisor) is exact,
    except that Decimal division rounds to 28 significant digits while Dec
    division is exact.  Decimal equality and comparison are numeric, which
    is what Dec.eqv / Dec.blt implement.
  - Unicode NFC normalization in layer 0 is modelled as the identity
    (inputs are assumed NFC-composed); NFKD-then-ASCII-encode diacritic
    stripping is modelled by foldChar, covering the Latin diacritics that
    occur in the repository's tables.
  - Operations that CPython may abort with an uncaught exception
    (Decimal construction outside a try block) are embedded in Except.
-/

namespace Meds

/-- Exact fraction model of Python Decimal.  All values built by the parser
have a positive denominator; the denominator is kept unreduced so that every
operation is kernel-computable (no gcd). -/
structure Dec where
  num : Int
  den : Nat
  deriving Repr, DecidableEq

namespace Dec

/-- Decimal from a natural number. -/
def ofNat (n : Nat) : Dec := ⟨n, 1⟩

/-- Numeric equality, as Python Decimal __eq__ (cross multiplication;
valid because constructed denominators are positive). -/
def eqv (a b : Dec) : Bool := a.num * b.den == b.num * a.den

/-- Numeric strict order for values with positive denominators. -/
def blt (a b : Dec) : Bool := a.num * b.den < b.num * a.den

/-- Exact division, used only where the divisor is nonnegative
(the bracket-ratio denominator, guarded against zero). -/
def div (a b : Dec) : Dec := ⟨a.num * b.den, a.den * b.num.natAbs⟩

def mul (a b : Dec) : Dec := ⟨a.num * b.num, a.den * b.den⟩

def sub (a b : Dec) : Dec := ⟨a.num * b.den - b.num * a.den, a.den * b.den⟩

def abs (a : Dec) : Dec := ⟨|a.num|, a.den⟩

/-- The rational number denoted by a Dec, for specification statements. -/
def toRat (a : Dec) : ℚ := (a.num : ℚ) / (a.den : ℚ)

/-- Numeric test against zero (Python Decimal == 0). -/
def isZero (a : Dec) : Bool := a.num == 0

end Dec

/-! ## Character-level primitives

lowerChar models Python str.lower / SQL lower on the characters that occur
in the repository's data: ASCII letters plus the Latin-1 accented letters
used by the tables.  foldChar models NFKD decomposition followed by
ASCII-encode-with-ignore: ASCII characters are kept, accented Latin letters
lose their diacritic, and any other non-ASCII character is dropped. -/

/-- Accented upper-case to lower-case pairs (Python str.lower). -/
def accentPairs : List (Char × Char) :=
  [('Á', 'á'), ('É', 'é'), ('Í', 'í'), ('Ó', 'ó'), ('Ú', 'ú'),
   ('Ü', 'ü'), ('Ñ', 'ñ')]

/-- Association-list lookup (Python dict.get on a version-controlled table). -/
def assocLookup {α : Type} (l : List (List Char × α)) (k : List Char) : Option α :=
  match l with
  | [] => none
  | (k', v) :: rest => if k = k' then some v else assocLookup rest k

/-- Lookup in a char-keyed pair list. -/
def charLookup (l : List (Char × Char)) (c : Char) : Option Char :=
  match l with
  | [] => none
  | (k, v) :: rest => if c = k then some v else charLookup rest c

def lowerChar (c : Char) : Char :=
  if 65 ≤ c.toNat ∧ c.toNat ≤ 90 then
    Char.ofNat (c.toNat + 32)
  else
    match charLookup accentPairs c with
    | some d => d
    | none => c

def upperChar (c : Char) : Char :=
  if 97 ≤ c.toNat ∧ c.toNat ≤ 122 then
    Char.ofNat (c.toNat - 32)
  else c

/-- Diacritic folding pairs: NFKD + ASCII-encode on the Latin letters used in
the repository's tables (both cases). -/
def foldPairs : List (Char × Char) :=
  [('á', 'a'), ('é', 'e'), ('í', 'i'), ('ó', 'o'), ('ú', 'u'),
   ('ü', 'u'), ('ñ', 'n'),
   ('Á', 'A'), ('É', 'E'), ('Í', 'I'), ('Ó', 'O'), ('Ú', 'U'),
   ('Ü', 'U'), ('Ñ', 'N')]

def foldChar (c : Char) : Option Char :=
  if c.toNat ≤ 127 then some c
  else charLookup foldPairs c

/-- Python regex word character; restricted to ASCII word characters plus the
accented letters that the repository's data can contain. -/
def isWordChar (c : Char) : Bool :=
  c.isAlphanum || c == '_' ||
    (charLookup foldPairs c).isSome || (charLookup foldPairs (upperChar c)).isSome ||
    c == 'µ'

/-! ## String-level primitives (on List Char) -/

def lowerL (l : List Char) : List Char := l.map lowerChar

def upperL (l : List Char) : List Char := l.map upperChar

def foldL (l : List Char) : List Char := l.filterMap foldChar

def isWs (c : Char) : Bool := c.isWhitespace

/-- Python str.lstrip (whitespace). -/
def lstrip (l : List Char) : List Char := l.dropWhile isWs

/-- Python str.rstrip (whitespace). -/
def rstrip (l : List Char) : List Char := (l.reverse.dropWhile isWs).reverse

/-- Python str.strip (whitespace). -/
def strip (l : List Char) : List Char := rstrip (lstrip l)

/-- Emit a pending whitespace run: runs of length two or more become a
single space, shorter runs are kept verbatim. -/
def flushWsRun (pend : List Char) : List Char :=
  if 2 ≤ pend.length then [' '] else pend.reverse

def collapseWs2Aux (pend : List Char) : List Char → List Char
  | [] => flushWsRun pend
  | c :: rest =>
    if isWs c then collapseWs2Aux (c :: pend) rest
    else flushWsRun pend ++ c :: collapseWs2Aux [] rest

/-- Replace every maximal run of two or more whitespace characters by a
single space: the model of re.sub applied to a two-or-more whitespace
pattern with a single-space replacement. -/
def collapseWs2 (l : List Char) : List Char := collapseWs2Aux [] l

def collapseWs1Aux (inRun : Bool) : List Char → List Char
  | [] => []
  | c :: rest =>
    if isWs c then
      if inRun then collapseWs1Aux true rest
      else ' ' :: collapseWs1Aux true rest
    else c :: collapseWs1Aux false rest

/-- Replace every maximal run of one or more whitespace characters by a
single space: the model of re.sub applied to a one-or-more whitespace
pattern with a single-space replacement. -/
def collapseWs1 (l : List Char) : List Char := collapseWs1Aux false l

/-- Python str.split on a single separator character. -/
def splitOnChar (sep : Char) : List Char → List (List Char)
  | [] => [[]]
  | c :: rest =>
    if c = sep then [] :: splitOnChar sep rest
    else
      match splitOnChar sep rest with
      | [] => [[c]]
      | p :: ps => (c :: p) :: ps

/-- Numeric value of a digit string. -/
def natVal (l : List Char) : Nat :=
  l.foldl (fun acc c => 10 * acc + (c.toNat - 48)) 0

/-- Decimal literal from dot-separated parts (helper of decOfString). -/
def decOfParts : List (List Char) → Option Dec
  | [intPart] =>
    if intPart ≠ [] ∧ intPart.all Char.isDigit then
      some ⟨natVal intPart, 1⟩
    else none
  | [intPart, fracPart] =>
    if (intPart ++ fracPart) ≠ [] ∧ intPart.all Char.isDigit ∧
        fracPart.all Char.isDigit then
      some ⟨natVal intPart * 10 ^ fracPart.length + natVal fracPart,
            10 ^ fracPart.length⟩
    else none
  | _ => none

/-- Model of the Decimal constructor on the strings this code builds from
regex captures: an optionally signless integer or fixed-point literal.
Returns none where Decimal raises InvalidOperation. -/
def decOfString (l : List Char) : Option Dec :=
  decOfParts (splitOnChar '.' l)

/-- Case-insensitive literal match at the head of a string (regex
IGNORECASE literal matching). -/
def caselessStartsWith : List Char → List Char → Bool
  | [], _ => true
  | _ :: _, [] => false
  | p :: ps, c :: cs => (lowerChar p == lowerChar c) && caselessStartsWith ps cs

/-! ## Enums (drug_parser.py / matching_engine.py)

ParseWarningCode is a str Enum in the source and warning lists hold plain
strings, so warnings are modelled as List Char values. -/

def AMBIGUOUS_DECIMAL : List Char := "AMBIGUOUS_DECIMAL".data
def BRACKET_RATIO_INCONSISTENT : List Char := "BRACKET_RATIO_INCONSISTENT".data
def COMPONENT_COUNT_MISMATCH : List Char := "COMPONENT_COUNT_MISMATCH".data
def FORM_NOT_RECOGNIZED : List Char := "FORM_NOT_RECOGNIZED".data
def INN_NOT_IN_SYNONYM_TABLE : List Char := "INN_NOT_IN_SYNONYM_TABLE".data
def NO_CONCENTRATION_FOUND : List Char := "NO_CONCENTRATION_FOUND".data
def PAREN_SYNONYM_UNRESOLVED : List Char := "PAREN_SYNONYM_UNRESOLVED".data
def UNPARSEABLE_BRACKET : List Char := "UNPARSEABLE_BRACKET".data

/-- How the concentration value was encoded in the original string. -/
inductive ConcEncoding where
  | inline
  | inlinePercent
  | bracketSimple
  | bracketRatioEnc
  deriving Repr, DecidableEq

/-- Administration-route group.  Matches across groups are always rejected. -/
inductive FormGroup where
  | ORAL_SOLID
  | ORAL_LIQUID
  | INJECTABLE
  | TOPICAL
  | OPHTHALMIC
  | INHALATION
  | RECTAL_VAGINAL
  | OTHER
  deriving Repr, DecidableEq

/-! ## Static lookup tables (drug_parser.py) -/

/-- Unit canonical map: lower-case input to canonical output. -/
def unitCanonical : List (List Char × List Char) :=
  [("mg".data, "mg".data), ("g".data, "g".data), ("mcg".data, "mcg".data),
   ("µg".data, "mcg".data), ("microgramo".data, "mcg".data),
   ("microgramos".data, "mcg".data), ("ug".data, "mcg".data),
   ("ui".data, "IU".data), ("iu".data, "IU".data), ("u".data, "IU".data),
   ("usp".data, "IU".data), ("miu".data, "mIU".data),
   ("ml".data, "mL".data), ("l".data, "L".data),
   ("meq".data, "mEq".data), ("mmol".data, "mmol".data),
   ("%".data, "%".data),
   ("mg/ml".data, "mg/mL".data), ("mg/dl".data, "mg/dL".data),
   ("mg/l".data, "mg/L".data), ("mg/g".data, "mg/g".data),
   ("mg/kg".data, "mg/kg".data), ("g/ml".data, "g/mL".data),
   ("g/dl".data, "g/dL".data), ("g/l".data, "g/L".data),
   ("g/g".data, "g/g".data), ("mcg/ml".data, "mcg/mL".data),
   ("ug/ml".data, "mcg/mL".data), ("µg/ml".data, "mcg/mL".data),
   ("mcg/kg".data, "mcg/kg".data), ("ui/ml".data, "IU/mL".data),
   ("iu/ml".data, "IU/mL".data), ("ui/g".data, "IU/g".data),
   ("iu/g".data, "IU/g".data), ("meq/ml".data, "mEq/mL".data),
   ("meq/l".data, "mEq/L".data), ("mmol/ml".data, "mmol/mL".data),
   ("mmol/l".data, "mmol/L".data)]

/-- Compound-unit alternatives of the inline dose regex: the keys of the
unit canonical map that contain a slash, sorted by length descending with
the source dict's insertion order breaking ties (Python sorted is stable). -/
def unitCompoundOrdered : List (List Char) :=
  ["mmol/ml".data,
   "mcg/ml".data, "mcg/kg".data, "meq/ml".data, "mmol/l".data,
   "mg/ml".data, "mg/dl".data, "mg/kg".data, "ug/ml".data, "µg/ml".data,
   "ui/ml".data, "iu/ml".data, "meq/l".data,
   "mg/l".data, "mg/g".data, "g/ml".data, "g/dl".data, "ui/g".data, "iu/g".data,
   "g/l".data, "g/g".data]

/-- Simple-unit alternatives of the inline dose regex: the slash-free keys,
sorted by length descending, ties in insertion order. -/
def unitSimpleOrdered : List (List Char) :=
  ["microgramos".data, "microgramo".data,
   "mmol".data,
   "mcg".data, "usp".data, "miu".data, "meq".data,
   "mg".data, "µg".data, "ug".data, "ui".data, "iu".data, "ml".data,
   "g".data, "u".data, "l".data, "%".data]

/-- INN synonym table: raw normalized input to canonical INN. -/
def innSynonyms : List (List Char × List Char) :=
  [("vitamina d3".data, "colecalciferol".data),
   ("vitamin d3".data, "colecalciferol".data),
   ("cholecalciferol".data, "colecalciferol".data),
   ("colecalciferol".data, "colecalciferol".data),
   ("vitamina b12".data, "cianocobalamina".data),
   ("cianocobalamina".data, "cianocobalamina".data),
   ("vitamina b1".data, "tiamina".data),
   ("tiamina".data, "tiamina".data),
   ("vitamina c".data, "acido ascorbico".data),
   ("acido ascorbico".data, "acido ascorbico".data),
   ("acido folico".data, "acido folico".data),
   ("folato".data, "acido folico".data),
   ("paracetamol".data, "acetaminofen".data),
   ("acetaminofen".data, "acetaminofen".data),
   ("amoxicilina".data, "amoxicilina".data),
   ("amoxycillin".data, "amoxicilina".data),
   ("acido clavulanico".data, "acido clavulanico".data),
   ("ac clavulanico".data, "acido clavulanico".data),
   ("ac. clavulanico".data, "acido clavulanico".data),
   ("clavulanato".data, "acido clavulanico".data),
   ("azitromicina".data, "azitromicina".data),
   ("claritromicina".data, "claritromicina".data),
   ("ciprofloxacino".data, "ciprofloxacino".data),
   ("ciprofloxacina".data, "ciprofloxacino".data),
   ("metronidazol".data, "metronidazol".data),
   ("abacavir".data, "abacavir".data),
   ("aciclovir".data, "aciclovir".data),
   ("acyclovir".data, "aciclovir".data),
   ("codeina".data, "codeina".data),
   ("codeína".data, "codeina".data),
   ("tramadol".data, "tramadol".data),
   ("morfina".data, "morfina".data),
   ("agua destilada".data, "agua para preparaciones inyectables".data),
   ("agua esteril".data, "agua para preparaciones inyectables".data),
   ("agua destilada esteril".data, "agua para preparaciones inyectables".data)]

/-- Pharmaceutical form synonym table: raw form to canonical form. -/
def formSynonyms : List (List Char × List Char) :=
  [("tableta".data, "tableta".data),
   ("tabletas".data, "tableta".data),
   ("tab".data, "tableta".data),
   ("tab.".data, "tableta".data),
   ("comprimido".data, "tableta".data),
   ("comprimidos".data, "tableta".data),
   ("tableta recubierta".data, "tableta recubierta".data),
   ("tableta dispersable".data, "tableta dispersable".data),
   ("tableta efervescente".data, "tableta efervescente".data),
   ("capsula".data, "capsula".data),
   ("capsulas".data, "capsula".data),
   ("cap".data, "capsula".data),
   ("cap.".data, "capsula".data),
   ("capsula de liberacion prolongada".data, "capsula de liberacion prolongada".data),
   ("capsula de liberacion modificada".data, "capsula de liberacion modificada".data),
   ("gragea".data, "gragea".data),
   ("ovulo".data, "ovulo".data),
   ("solucion oral".data, "solucion oral".data),
   ("sol. oral".data, "solucion oral".data),
   ("solucion".data, "solucion oral".data),
   ("suspension oral".data, "suspension oral".data),
   ("suspension".data, "suspension oral".data),
   ("jarabe".data, "jarabe".data),
   ("syrup".data, "jarabe".data),
   ("elixir".data, "elixir".data),
   ("emulsion oral".data, "emulsion oral".data),
   ("gotas orales".data, "gotas orales".data),
   ("solucion inyectable".data, "solucion inyectable".data),
   ("solucion para inyeccion".data, "solucion inyectable".data),
   ("sol. inyectable".data, "solucion inyectable".data),
   ("solucion para infusion".data, "solucion para infusion".data),
   ("solucion para infusion intravenosa".data, "solucion para infusion".data),
   ("polvo para solucion inyectable".data, "polvo para solucion inyectable".data),
   ("polvo para reconstitucion".data, "polvo para reconstitucion".data),
   ("liofilizado".data, "polvo para reconstitucion".data),
   ("suspension inyectable".data, "suspension inyectable".data),
   ("unguento topico".data, "unguento".data),
   ("unguento".data, "unguento".data),
   ("ungüento".data, "unguento".data),
   ("ungüento topico".data, "unguento".data),
   ("crema topica".data, "crema".data),
   ("crema".data, "crema".data),
   ("gel topico".data, "gel topico".data),
   ("gel".data, "gel topico".data),
   ("solucion topica".data, "solucion topica".data),
   ("locion".data, "locion".data),
   ("espuma topica".data, "espuma topica".data),
   ("parche transdermico".data, "parche transdermico".data),
   ("solucion oftalmica".data, "solucion oftalmica".data),
   ("colirio".data, "solucion oftalmica".data),
   ("gotas oftalmicas".data, "solucion oftalmica".data),
   ("suspension oftalmica".data, "suspension oftalmica".data),
   ("inhalador".data, "inhalador".data),
   ("aerosol".data, "inhalador".data),
   ("spray nasal".data, "spray nasal".data),
   ("spray".data, "inhalador".data),
   ("polvo para inhalacion".data, "polvo para inhalacion".data),
   ("supositorio".data, "supositorio".data),
   ("supositorios".data, "supositorio".data),
   ("ovulo vaginal".data, "ovulo vaginal".data)]

/-- Canonical form to FormGroup mapping. -/
def formGroupTable : List (List Char × FormGroup) :=
  [("tableta".data, FormGroup.ORAL_SOLID),
   ("tableta recubierta".data, FormGroup.ORAL_SOLID),
   ("tableta dispersable".data, FormGroup.ORAL_SOLID),
   ("tableta efervescente".data, FormGroup.ORAL_SOLID),
   ("capsula".data, FormGroup.ORAL_SOLID),
   ("capsula de liberacion prolongada".data, FormGroup.ORAL_SOLID),
   ("capsula de liberacion modificada".data, FormGroup.ORAL_SOLID),
   ("gragea".data, FormGroup.ORAL_SOLID),
   ("solucion oral".data, FormGroup.ORAL_LIQUID),
   ("suspension oral".data, FormGroup.ORAL_LIQUID),
   ("jarabe".data, FormGroup.ORAL_LIQUID),
   ("elixir".data, FormGroup.ORAL_LIQUID),
   ("emulsion oral".data, FormGroup.ORAL_LIQUID),
   ("gotas orales".data, FormGroup.ORAL_LIQUID),
   ("solucion inyectable".data, FormGroup.INJECTABLE),
   ("solucion para infusion".data, FormGroup.INJECTABLE),
   ("polvo para solucion inyectable".data, FormGroup.INJECTABLE),
   ("polvo para reconstitucion".data, FormGroup.INJECTABLE),
   ("suspension inyectable".data, FormGroup.INJECTABLE),
   ("unguento".data, FormGroup.TOPICAL),
   ("crema".data, FormGroup.TOPICAL),
   ("gel topico".data, FormGroup.TOPICAL),
   ("solucion topica".data, FormGroup.TOPICAL),
   ("locion".data, FormGroup.TOPICAL),
   ("espuma topica".data, FormGroup.TOPICAL),
   ("parche transdermico".data, FormGroup.TOPICAL),
   ("solucion oftalmica".data, FormGroup.OPHTHALMIC),
   ("suspension oftalmica".data, FormGroup.OPHTHALMIC),
   ("inhalador".data, FormGroup.INHALATION),
   ("spray nasal".data, FormGroup.INHALATION),
   ("polvo para inhalacion".data, FormGroup.INHALATION),
   ("supositorio".data, FormGroup.RECTAL_VAGINAL),
   ("ovulo vaginal".data, FormGroup.RECTAL_VAGINAL),
   ("ovulo".data, FormGroup.RECTAL_VAGINAL)]

/-- Known forms sorted longest-first for greedy right-anchor matching:
the form synonym keys sorted by length descending, insertion order breaking
ties (Python sorted is stable). -/
def knownFormsSorted : List (List Char) :=
  ["solucion para infusion intravenosa".data,
   "capsula de liberacion prolongada".data,
   "capsula de liberacion modificada".data,
   "polvo para solucion inyectable".data,
   "polvo para reconstitucion".data,
   "solucion para inyeccion".data,
   "solucion para infusion".data,
   "suspension inyectable".data,
   "polvo para inhalacion".data,
   "tableta efervescente".data,
   "suspension oftalmica".data,
   "tableta dispersable".data,
   "solucion inyectable".data,
   "parche transdermico".data,
   "tableta recubierta".data,
   "solucion oftalmica".data,
   "gotas oftalmicas".data,
   "suspension oral".data,
   "sol. inyectable".data,
   "unguento topico".data,
   "ungüento topico".data,
   "solucion topica".data,
   "solucion oral".data,
   "emulsion oral".data,
   "espuma topica".data,
   "ovulo vaginal".data,
   "gotas orales".data,
   "crema topica".data,
   "supositorios".data,
   "comprimidos".data,
   "liofilizado".data,
   "spray nasal".data,
   "supositorio".data,
   "comprimido".data,
   "suspension".data,
   "gel topico".data,
   "sol. oral".data,
   "inhalador".data,
   "tabletas".data,
   "capsulas".data,
   "solucion".data,
   "unguento".data,
   "ungüento".data,
   "tableta".data,
   "capsula".data,
   "ovulo".data,
   "colirio".data,
   "aerosol".data,
   "gragea".data,
   "jarabe".data,
   "elixir".data,
   "locion".data,
   "syrup".data,
   "crema".data,
   "spray".data,
   "tab.".data,
   "cap.".data,
   "tab".data,
   "cap".data,
   "gel".data]

/-- Salt and qualifier suffixes stripped from INN text before synonym
lookup, in the alternation order of the source regex. -/
def innQualifiers : List (List Char) :=
  ["clorhidrato".data, "hidrocloruro".data, "sodico".data, "potasico".data,
   "calcico".data, "acetato".data, "fosfato".data, "sulfato".data,
   "bromuro".data, "maleato".data, "fumarato".data, "tartrato".data,
   "base".data]

/-! ## Data model (pydantic models of drug_parser.py) -/

/-- A single, fully normalized concentration value. -/
structure NormalizedConcentration where
  raw : List Char
  value : Dec
  unit : List Char
  encoding : ConcEncoding
  deriving Repr, DecidableEq

/-- Strict equality check used as the Hard Barrier in the matching engine:
numeric equality on value, case-insensitive equality on unit. -/
def NormalizedConcentration.matches (a b : NormalizedConcentration) : Bool :=
  a.value.eqv b.value && lowerL a.unit == lowerL b.unit

/-- One active principle in a (possibly combo) drug. -/
structure DrugComponent where
  raw_inn : List Char
  canonical_inn : List Char
  aliases : List (List Char)
  deriving Repr, DecidableEq

/-- The complete output of the normalization pipeline for one input row. -/
structure ParsedDrug where
  raw_input : List Char
  components : List DrugComponent
  concentrations : List NormalizedConcentration
  canonical_form : Option (List Char)
  raw_form : Option (List Char)
  form_group : Option FormGroup
  parse_warnings : List (List Char)
  deriving Repr, DecidableEq

/-- component_count is kept in sync with len(components) by the model
validator, so it is modelled as a derived field. -/
def ParsedDrug.component_count (p : ParsedDrug) : Nat := p.components.length

/-- is_combo is kept in sync with len(components) > 1 by the model
validator, so it is modelled as a derived field. -/
def ParsedDrug.is_combo (p : ParsedDrug) : Bool := 1 < p.components.length

/-- Selection priority of canonical_concentration. -/
def encPriority : ConcEncoding → Nat
  | ConcEncoding.bracketRatioEnc => 0
  | ConcEncoding.inline => 1
  | ConcEncoding.bracketSimple => 2
  | ConcEncoding.inlinePercent => 3

/-- Python min with a key function: the first element attaining the
minimal key. -/
def firstMinBy {α : Type} (f : α → Nat) : List α → Option α
  | [] => none
  | x :: xs =>
    match firstMinBy f xs with
    | none => some x
    | some y => if f x ≤ f y then some x else some y

/-- The single most precise concentration for a mono-component drug;
none for combo drugs or when no concentration was found. -/
def ParsedDrug.canonical_concentration (p : ParsedDrug) :
    Option NormalizedConcentration :=
  if p.is_combo || p.concentrations.isEmpty then none
  else firstMinBy (fun c => encPriority c.encoding) p.concentrations

/-- True when this ParsedDrug can be safely sent to the matching engine:
false when a blocking warning (COMPONENT_COUNT_MISMATCH or
AMBIGUOUS_DECIMAL) is present. -/
def ParsedDrug.is_matchable (p : ParsedDrug) : Bool :=
  !(p.parse_warnings.contains COMPONENT_COUNT_MISMATCH ||
    p.parse_warnings.contains AMBIGUOUS_DECIMAL)

/-! ## Layer 0 and layer 1 segmentation helpers -/

/-- Layer 0 pre-flight sanitization: NFC (modelled as the identity), strip,
lowercase; empty and whitespace-only inputs collapse to the empty string. -/
def layer0Sanitize (raw : List Char) : List Char :=
  if raw = [] ∨ strip raw = [] then []
  else lowerL (strip raw)

/-- Scan for delimited blocks: the state carries the reversed content of an
open block.  Returns the text with each closed block replaced by a single
space (the regex sub) together with the block contents in order (the regex
finditer).  An unclosed opening delimiter matches nothing and the tail is
kept verbatim. -/
def extractBlocksAux (openC closeC : Char) :
    Option (List Char) → List Char → List Char × List (List Char)
  | none, [] => ([], [])
  | none, c :: rest =>
    if c = openC then extractBlocksAux openC closeC (some []) rest
    else
      let (cl, cs) := extractBlocksAux openC closeC none rest
      (c :: cl, cs)
  | some acc, [] => (openC :: acc.reverse, [])
  | some acc, c :: rest =>
    if c = closeC then
      let (cl, cs) := extractBlocksAux openC closeC none rest
      (' ' :: cl, acc.reverse :: cs)
    else extractBlocksAux openC closeC (some (c :: acc)) rest

/-- Extract all bracket and paren blocks: contents are collected on the
original text (finditer); the cleaned text removes bracket blocks first,
then paren blocks, then collapses two-or-more whitespace runs and strips. -/
def extractDelimitedBlocks (text : List Char) :
    List Char × List (List Char) × List (List Char) :=
  let bracketContents := (extractBlocksAux '[' ']' none text).2.map strip
  let parenContents := (extractBlocksAux '(' ')' none text).2.map strip
  let cleaned1 := (extractBlocksAux '[' ']' none text).1
  let cleaned2 := (extractBlocksAux '(' ')' none cleaned1).1
  (strip (collapseWs2 cleaned2), bracketContents, parenContents)

/-- Identify and strip a pharmaceutical form from the right end of the
text, trying each known form from longest to shortest. -/
def extractTrailingForm (text : List Char) : List Char × Option (List Char) :=
  let lower := rstrip (lowerL text)
  match knownFormsSorted.find? (fun f => f.isSuffixOf lower) with
  | some f => (strip (text.take (lower.length - f.length)), some f)
  | none => (strip text, none)

/-- Split on plus signs only at delimiter depth zero, stripping segments
and keeping the tail only when nonempty (before the final truthiness
filter applied by the caller below). -/
def splitOnPlusAux (depth : Nat) (current : List Char) :
    List Char → List (List Char)
  | [] =>
    let tail := strip current.reverse
    if tail ≠ [] then [tail] else []
  | ch :: rest =>
    if ch = '(' ∨ ch = '[' then splitOnPlusAux (depth + 1) (ch :: current) rest
    else if ch = ')' ∨ ch = ']' then splitOnPlusAux (depth - 1) (ch :: current) rest
    else if ch = '+' ∧ depth = 0 then
      strip current.reverse :: splitOnPlusAux 0 [] rest
    else splitOnPlusAux depth (ch :: current) rest

/-- Split text on plus signs outside brackets and parens. -/
def splitOnPlusOutsideDelimiters (text : List Char) : List (List Char) :=
  (splitOnPlusAux 0 [] text).filter (· ≠ [])

/-! ## Inline dose regex

Hand-rolled matcher for the inline dose pattern: a number (digits with an
optional decimal-comma or dot fraction), optional whitespace, then a unit
drawn from the compound alternatives followed by the simple alternatives
(each list longest-first), matched case-insensitively and not followed by a
word character.  The greedy number scan is deterministic because no unit
alternative starts with a digit, a separator or whitespace. -/

/-- Match the number group at the head of the string; returns the captured
number text and the remainder. -/
def matchNumAt (l : List Char) : Option (List Char × List Char) :=
  match l with
  | [] => none
  | c :: _ =>
    if c.isDigit then
      let d1 := l.takeWhile Char.isDigit
      let r1 := l.dropWhile Char.isDigit
      match r1 with
      | sep :: r2 =>
        if sep = '.' ∨ sep = ',' then
          match r2 with
          | d :: _ =>
            if d.isDigit then
              some (d1 ++ sep :: r2.takeWhile Char.isDigit, r2.dropWhile Char.isDigit)
            else some (d1, r1)
          | [] => some (d1, r1)
        else some (d1, r1)
      | [] => some (d1, [])
    else none

/-- True when the head of the string is a word character (the negative
lookahead of the inline dose pattern fails). -/
def headIsWord (l : List Char) : Bool :=
  match l.head? with
  | some c => isWordChar c
  | none => false

/-- Match a unit alternative of the inline dose pattern at the head of the
string, first alternative wins, each checked against the trailing negative
lookahead. -/
def matchInlineUnitAt (l : List Char) : Option (List Char × List Char) :=
  match (unitCompoundOrdered ++ unitSimpleOrdered).find?
      (fun u => caselessStartsWith u l && !headIsWord (l.drop u.length)) with
  | some u => some (l.take u.length, l.drop u.length)
  | none => none

/-- A successful search of the inline dose pattern: the text before the
match, the number and unit captures, the whitespace between them, and the
text after the match. -/
structure DoseMatch where
  before : List Char
  num : List Char
  gap : List Char
  unit : List Char
  rest : List Char
  deriving Repr, DecidableEq

/-- Regex search of the inline dose pattern: try a match at every position
from the left. -/
def inlineDoseSearchAux (acc : List Char) : List Char → Option DoseMatch
  | [] => none
  | c :: rest =>
    match matchNumAt (c :: rest) with
    | some (num, r1) =>
      let gap := r1.takeWhile isWs
      let r2 := r1.dropWhile isWs
      match matchInlineUnitAt r2 with
      | some (u, r3) => some ⟨acc.reverse, num, gap, u, r3⟩
      | none => inlineDoseSearchAux (c :: acc) rest
    | none => inlineDoseSearchAux (c :: acc) rest

def inlineDoseSearch (l : List Char) : Option DoseMatch :=
  inlineDoseSearchAux [] l

/-- Within a single segment, locate the first inline dose token; everything
before it is the INN text, the dose token and everything after is the raw
dose string. -/
def splitInnAndDose (segment : List Char) : List Char × Option (List Char) :=
  match inlineDoseSearch segment with
  | some m => (strip m.before, some (strip (m.num ++ m.gap ++ m.unit ++ m.rest)))
  | none => (strip segment, none)

/-! ## Bracket ratio regex

Hand-rolled full match of the bracket ratio pattern: number, optional
whitespace, a numerator unit alternative, a slash with optional whitespace
around it, number, optional whitespace, a denominator unit alternative, end
of string.  The g and L alternatives carry a trailing word-boundary check;
no two distinct alternatives can match at the same position, so ordered
first-match needs no backtracking. -/

/-- Numerator unit alternatives in source order, paired with whether the
alternative carries a word-boundary check. -/
def ratioUnit1Alts : List (List Char × Bool) :=
  [("mg".data, false), ("mcg".data, false), ("µg".data, false),
   ("ug".data, false), ("g".data, true), ("ui".data, false),
   ("iu".data, false), ("meq".data, false), ("mmol".data, false),
   ("ml".data, false), ("ml".data, false), ("l".data, true)]

/-- Denominator unit alternatives in source order. -/
def ratioUnit2Alts : List (List Char × Bool) :=
  [("ml".data, false), ("ml".data, false), ("g".data, true), ("l".data, true)]

/-- Match a ratio unit alternative at the head of the string. -/
def matchRatioUnitAt (alts : List (List Char × Bool)) (l : List Char) :
    Option (List Char × List Char) :=
  match alts.find? (fun p =>
      caselessStartsWith p.1 l && (!p.2 || !headIsWord (l.drop p.1.length))) with
  | some p => some (l.take p.1.length, l.drop p.1.length)
  | none => none

/-- Full match of the bracket ratio pattern, returning the four captures
(num1, unit1, num2, unit2). -/
def bracketRatioFullmatch (l : List Char) :
    Option (List Char × List Char × List Char × List Char) :=
  match matchNumAt l with
  | none => none
  | some (n1, r1) =>
    match matchRatioUnitAt ratioUnit1Alts (r1.dropWhile isWs) with
    | none => none
    | some (u1, r3) =>
      match r3.dropWhile isWs with
      | sc :: r5 =>
        if sc = '/' then
          match matchNumAt (r5.dropWhile isWs) with
          | none => none
          | some (n2, r7) =>
            match matchRatioUnitAt ratioUnit2Alts (r7.dropWhile isWs) with
            | some (u2, []) => some (n1, u1, n2, u2)
            | _ => none
        else none
      | [] => none

/-! ## Layer 2 — value normalization -/

/-- Best-effort Decimal parse of a comma-stripped string inside a
try/except: a failure yields zero with the ambiguity warning. -/
def decimalStrippingCommas (cleaned : List Char) : Dec × List (List Char) :=
  match decOfString (cleaned.filter (fun c => c ≠ ',')) with
  | some v => (v, [AMBIGUOUS_DECIMAL])
  | none => (⟨0, 1⟩, [AMBIGUOUS_DECIMAL])

/-- The two-part (single comma) case of the locale resolution; the Decimal
constructions of the thousands and decimal-comma branches sit outside a try
block in the source and are embedded in Except. -/
def resolveTwoParts (cleaned before after : List Char) :
    Except (List Char) (Dec × List (List Char)) :=
  if after.length = 3 ∧ after.all Char.isDigit then
    match decOfString (before ++ after) with
    | some v => Except.ok (v, [])
    | none => Except.error "InvalidOperation".data
  else if after.length = 1 ∨ after.length = 2 then
    match decOfString (before ++ '.' :: after) with
    | some v => Except.ok (v, [])
    | none => Except.error "InvalidOperation".data
  else if 4 ≤ after.length then
    match decOfString (before ++ '.' :: after) with
    | some v => Except.ok (v, [AMBIGUOUS_DECIMAL])
    | none => Except.ok (⟨0, 1⟩, [AMBIGUOUS_DECIMAL])
  else
    Except.ok (decimalStrippingCommas cleaned)

/-- Locale resolution after the space removal (helper of
resolveDecimalLocale). -/
def resolveCleaned (cleaned : List Char) :
    Except (List Char) (Dec × List (List Char)) :=
  if cleaned.contains ',' then
    match splitOnChar ',' cleaned with
    | [before, after] => resolveTwoParts cleaned before after
    | _ => Except.ok (decimalStrippingCommas cleaned)
  else
    match decOfString cleaned with
    | some v => Except.ok (v, [])
    | none => Except.ok (⟨0, 1⟩, [AMBIGUOUS_DECIMAL])

/-- Resolve European decimal comma versus US thousands separator comma. -/
def resolveDecimalLocale (numStr : List Char) :
    Except (List Char) (Dec × List (List Char)) :=
  resolveCleaned (numStr.filter (fun c => c ≠ ' '))

/-- Return the canonical unit string, falling back to the uppercased raw
unit when unknown. -/
def canonicalizeUnit (rawUnit : List Char) : List Char :=
  match assocLookup unitCanonical (lowerL (strip rawUnit)) with
  | some u => u
  | none => upperL (strip rawUnit)

/-- Parse an inline dose string; none when the string cannot be parsed. -/
def parseInlineDose (doseStr : List Char) :
    Except (List Char) (Option NormalizedConcentration × List (List Char)) :=
  match inlineDoseSearch doseStr with
  | none => Except.ok (none, [])
  | some m =>
    let encoding :=
      if strip m.unit = "%".data then ConcEncoding.inlinePercent
      else ConcEncoding.inline
    match resolveDecimalLocale m.num with
    | Except.error e => Except.error e
    | Except.ok (value, w) =>
      Except.ok (some ⟨doseStr, value, canonicalizeUnit m.unit, encoding⟩, w)

/-- Parse a bracket concentration string: ratio form simplified by exact
division (Decimal normalize is a numeric no-op), else simple form, else the
unparseable-bracket warning. -/
def parseBracketConcentration (bracketContent : List Char) :
    Except (List Char) (Option NormalizedConcentration × List (List Char)) :=
  match bracketRatioFullmatch (strip bracketContent) with
  | some (n1, u1raw, n2, u2raw) =>
    match resolveDecimalLocale n1 with
    | Except.error e => Except.error e
    | Except.ok (v1, w1) =>
      match resolveDecimalLocale n2 with
      | Except.error e => Except.error e
      | Except.ok (v2, w2) =>
        let u1 := canonicalizeUnit u1raw
        let u2 := canonicalizeUnit u2raw
        if v2.isZero then
          Except.ok (none, w1 ++ w2 ++ [UNPARSEABLE_BRACKET])
        else
          Except.ok
            (some ⟨bracketContent, v1.div v2,
                   canonicalizeUnit (u1 ++ '/' :: u2),
                   ConcEncoding.bracketRatioEnc⟩,
             w1 ++ w2)
  | none =>
    match inlineDoseSearch bracketContent with
    | some m =>
      match resolveDecimalLocale m.num with
      | Except.error e => Except.error e
      | Except.ok (v, w) =>
        Except.ok
          (some ⟨bracketContent, v, canonicalizeUnit m.unit,
                 ConcEncoding.bracketSimple⟩,
           w)
    | none => Except.ok (none, [UNPARSEABLE_BRACKET])

/-- Arithmetic consistency between a percentage and a simplified bracket
ratio: one percent weight-per-volume is ten milligrams per millilitre;
discrepancy beyond one percent of the bracket value is flagged. -/
def validatePercentVsBracket (pct bracket : NormalizedConcentration) :
    List (List Char) :=
  if bracket.unit ≠ "mg/mL".data then []
  else
    let expected := pct.value.mul ⟨10, 1⟩
    if Dec.blt ((⟨1, 100⟩ : Dec).mul bracket.value)
        ((expected.sub bracket.value).abs) then
      [BRACKET_RATIO_INCONSISTENT]
    else []

/-- Whether a qualifier word matches at this position of the INN text
(boundary before the match is checked by the caller), returning its
length. -/
def tryQual (l : List Char) : Option Nat :=
  match innQualifiers.find? (fun q =>
      caselessStartsWith q l && !headIsWord (l.drop q.length)) with
  | some q => some q.length
  | none => none

/-- Left-to-right regex sub of whole qualifier words by a single space.
The skip counter consumes the remaining characters of a matched qualifier;
pw tracks whether the previous original character is a word character (the
leading word boundary). -/
def subQualAux (pw : Bool) (skip : Nat) : List Char → List Char
  | [] => []
  | c :: rest =>
    match skip with
    | k + 1 => subQualAux true k rest
    | 0 =>
      if pw then c :: subQualAux (isWordChar c) 0 rest
      else
        match tryQual (c :: rest) with
        | some n => ' ' :: subQualAux true (n - 1) rest
        | none => c :: subQualAux (isWordChar c) 0 rest

/-- Search-normalized INN string: diacritics removed, qualifier words
stripped, whitespace runs collapsed, stripped and lowercased. -/
def normalizeInnText (raw : List Char) : List Char :=
  lowerL (strip (collapseWs2 (subQualAux false 0 (foldL raw))))

/-- Determine the canonical INN and alias list when a parenthetical synonym
was found. -/
def resolveParenSynonym (parenContent rawInn : List Char) :
    List Char × List (List Char) :=
  let parenLower := lowerL (strip parenContent)
  let rawLower := lowerL (strip rawInn)
  match assocLookup innSynonyms parenLower with
  | some canonical => (canonical, if rawLower ≠ canonical then [rawInn] else [])
  | none =>
    match assocLookup innSynonyms rawLower with
    | some canonical =>
      (canonical, if parenLower ≠ canonical then [parenContent] else [])
    | none => (rawLower, [parenContent])

/-- Construct a DrugComponent, resolving the canonical INN; the second
component of the result lists the warnings appended. -/
def buildDrugComponent (rawInnText : List Char)
    (parenSynonyms : List (List Char)) : DrugComponent × List (List Char) :=
  let normalizedRaw := normalizeInnText rawInnText
  match parenSynonyms with
  | p :: _ =>
    let (canonical, aliases) := resolveParenSynonym p normalizedRaw
    (⟨normalizedRaw, canonical, aliases⟩, [])
  | [] =>
    match assocLookup innSynonyms normalizedRaw with
    | some canonical =>
      (⟨normalizedRaw, canonical,
        if canonical ≠ normalizedRaw then [normalizedRaw] else []⟩, [])
    | none => (⟨normalizedRaw, normalizedRaw, []⟩, [INN_NOT_IN_SYNONYM_TABLE])

/-! ## Layer 3 — pharmaceutical form normalization -/

/-- Map the raw form string to its canonical form and FormGroup,
normalizing diacritics before lookup. -/
def layer3NormalizeForm (rawForm : Option (List Char)) :
    (Option (List Char) × Option FormGroup) × List (List Char) :=
  match rawForm with
  | none => ((none, none), [])
  | some rf =>
    if rf = [] then ((none, none), [])
    else
      let asciiF := collapseWs1 (lowerL (strip (foldL rf)))
      match assocLookup formSynonyms asciiF with
      | none => ((some rf, some FormGroup.OTHER), [FORM_NOT_RECOGNIZED])
      | some canonical =>
        ((some canonical,
          some ((assocLookup formGroupTable canonical).getD FormGroup.OTHER)), [])

/-! ## Public parse entry point -/

/-- Collect inline concentrations from the dose strings, accumulating
warnings in iteration order. -/
def collectInline : List (List Char) →
    Except (List Char) (List NormalizedConcentration × List (List Char))
  | [] => Except.ok ([], [])
  | d :: rest =>
    match parseInlineDose d with
    | Except.error e => Except.error e
    | Except.ok (oc, w) =>
      match collectInline rest with
      | Except.error e => Except.error e
      | Except.ok (cs, ws) =>
        Except.ok ((match oc with | some c => c :: cs | none => cs), w ++ ws)

/-- Collect bracket concentrations, accumulating warnings in iteration
order. -/
def collectBracket : List (List Char) →
    Except (List Char) (List NormalizedConcentration × List (List Char))
  | [] => Except.ok ([], [])
  | b :: rest =>
    match parseBracketConcentration b with
    | Except.error e => Except.error e
    | Except.ok (oc, w) =>
      match collectBracket rest with
      | Except.error e => Except.error e
      | Except.ok (cs, ws) =>
        Except.ok ((match oc with | some c => c :: cs | none => cs), w ++ ws)

/-- Build components for the non-first INN parts (no parenthetical
synonyms are assigned to them). -/
def buildRestComponents : List (List Char) →
    List DrugComponent × List (List Char)
  | [] => ([], [])
  | x :: xs =>
    let (c, w) := buildDrugComponent x []
    let (cs, ws) := buildRestComponents xs
    (c :: cs, w ++ ws)

/-- Build all components: parenthetical synonyms are assigned to the first
INN only. -/
def buildComponents (innParts : List (List Char))
    (parenContents : List (List Char)) :
    List DrugComponent × List (List Char) :=
  match innParts with
  | [] => ([], [])
  | first :: rest =>
    let (c0, w0) := buildDrugComponent first parenContents
    let (cs, ws) := buildRestComponents rest
    (c0 :: cs, w0 ++ ws)

/-- Assembly of the ParsedDrug from the segmented pieces (helper of
parseCore). -/
def parseAssemble (raw sanitized afterForm : List Char)
    (rawForm : Option (List Char))
    (bracketContents parenContents innParts doseParts : List (List Char)) :
    Except (List Char) ParsedDrug :=
    match collectInline doseParts with
    | Except.error e => Except.error e
    | Except.ok (inlineConcentrations, w1) =>
      match collectBracket bracketContents with
      | Except.error e => Except.error e
      | Except.ok (bracketConcentrations, w2) =>
        let pctConcs := inlineConcentrations.filter
          (fun c => c.encoding = ConcEncoding.inlinePercent)
        let bracketRatioC := bracketConcentrations.find?
          (fun c => c.encoding = ConcEncoding.bracketRatioEnc)
        let w3 :=
          match pctConcs, bracketRatioC with
          | p :: _, some br => validatePercentVsBracket p br
          | _, _ => []
        let allConcentrations :=
          if 1 < innParts.length then inlineConcentrations
          else bracketConcentrations ++ inlineConcentrations
        let w4 :=
          if allConcentrations = [] then [NO_CONCENTRATION_FOUND] else []
        let (components0, w5) := buildComponents innParts parenContents
        let w6 :=
          if 1 < components0.length ∧
              inlineConcentrations.length ≠ components0.length then
            [COMPONENT_COUNT_MISMATCH]
          else []
        let (components, w7) :=
          if components0 = [] then
            let (comp, w) :=
              buildDrugComponent (if afterForm ≠ [] then afterForm else sanitized)
                parenContents
            ([comp], w)
          else (components0, [])
        let ((canonicalForm, formGroup), w8) := layer3NormalizeForm rawForm
        Except.ok ⟨raw, components, allConcentrations, canonicalForm, rawForm,
                   formGroup, w1 ++ w2 ++ w3 ++ w4 ++ w5 ++ w6 ++ w7 ++ w8⟩

/-- Layers 1 to 3 of parse on a non-empty sanitized string. -/
def parseCore (raw sanitized : List Char) : Except (List Char) ParsedDrug :=
  let (afterDelimiters, bracketContents, parenContents) :=
    extractDelimitedBlocks sanitized
  let (afterForm, rawForm) := extractTrailingForm afterDelimiters
  let segments0 := splitOnPlusOutsideDelimiters afterForm
  let segments := if segments0 = [] then [afterForm] else segments0
  let innParts :=
    (segments.map (fun seg => (splitInnAndDose seg).1)).filter (· ≠ [])
  let doseParts :=
    (segments.filterMap (fun seg => (splitInnAndDose seg).2)).filter (· ≠ [])
  parseAssemble raw sanitized afterForm rawForm bracketContents parenContents
    innParts doseParts

/-- Full 4-layer normalization pipeline for a single pharmaceutical product
description string.  The Except layer carries the Decimal constructions the
source leaves outside a try block; parse is proved below to never take the
error branch. -/
def parse (raw : List Char) : Except (List Char) ParsedDrug :=
  let sanitized := layer0Sanitize raw
  if sanitized = [] then
    Except.ok ⟨raw, [], [], none, none, none, [NO_CONCENTRATION_FOUND]⟩
  else
    parseCore raw sanitized

/-! ## Matching engine (matching_engine.py)

The SQL queries are modelled as pure functions over a Db value that carries
the joined catalog relation in scan order, a pg_trgm similarity oracle and
the synonym dictionary rows; ORDER BY with ties is modelled by a stable
sort (the claims below do not depend on tie order). -/

inductive MatchStage where
  | SYNONYM_DICT
  | EXACT
  | FUZZY_INN_SAFE
  | NO_MATCH
  deriving Repr, DecidableEq

inductive RejectReason where
  | CONCENTRATION_MISMATCH
  | CONCENTRATION_PARSE_FAILED
  | FORM_GROUP_MISMATCH
  | INN_SIMILARITY_TOO_LOW
  | DRUG_INACTIVE
  | INPUT_NOT_MATCHABLE
  | NO_CANDIDATES
  deriving Repr, DecidableEq

/-- One row of the catalog relation joined with medicamentos_cum (outer
join on id_cum, concentracion null when there is no CUM row). -/
structure CatalogRow where
  id : Nat
  id_cum : Option (List Char)
  principio_activo : Option (List Char)
  forma_farmaceutica : Option (List Char)
  nombre_limpio : Option (List Char)
  concentracion : Option (List Char)
  activo : Bool
  deriving Repr, DecidableEq

/-- One row of the hospital-scoped synonym dictionary. -/
structure SynonymEntry where
  hospital_id : List Char
  raw_input : List Char
  raw_input_normalized : List Char
  cum_id : List Char
  medicamento_id : Option Nat
  confidence : Dec
  deriving Repr, DecidableEq

/-- The closest-candidate record attached to a no-match result. -/
structure ClosestCandidate where
  cum_id : Option (List Char)
  medicamento_id : Nat
  principio_activo : Option (List Char)
  forma_farmaceutica : Option (List Char)
  concentracion : Option (List Char)
  inn_score : Dec
  deriving Repr, DecidableEq

/-- Fully auditable match result. -/
structure MatchResult where
  stage : MatchStage
  confidence : Dec
  cum_id : Option (List Char)
  medicamento_id : Option Nat
  db_principio_activo : Option (List Char)
  db_forma : Option (List Char)
  db_concentracion : Option (List Char)
  inn_score : Option Dec
  reject_reason : Option RejectReason
  closest_candidate : Option ClosestCandidate
  parser_warnings : List (List Char)
  deriving Repr, DecidableEq

/-- The database state visible to one match_drug call. -/
structure Db where
  rows : List CatalogRow
  sim : List Char → List Char → Dec
  synonyms : List SynonymEntry

/-- Minimum pg_trgm similarity for the INN field in Stage 2. -/
def TRGM_INN_THRESHOLD : Dec := ⟨85, 100⟩

/-- Maximum candidates retrieved by Stage 2 SQL. -/
def STAGE2_CANDIDATE_LIMIT : Nat := 20

/-- Strip the bracket characters from both ends (Python str.strip with a
character set). -/
def stripBracketChars (l : List Char) : List Char :=
  let p := fun c => c = '[' ∨ c = ']'
  ((l.dropWhile p).reverse.dropWhile p).reverse

/-- Re-parse a raw concentration string from the catalog through the same
pipeline; none when unparseable (fail-closed).  The error branches of the
Except embedding are unreachable (resolveDecimalLocale never fails on a
regex number capture, proved below) and are mapped to the fail-closed
none. -/
def parseDbConcentration (rawConc : Option (List Char)) :
    Option NormalizedConcentration :=
  match rawConc with
  | none => none
  | some rc =>
    if strip rc = [] then none
    else
      let cleaned := strip rc
      match parseInlineDose cleaned with
      | Except.ok (some c, _) => some c
      | Except.ok (none, _) =>
        match parseBracketConcentration (strip (stripBracketChars cleaned)) with
        | Except.ok (oc, _) => oc
        | Except.error _ => none
      | Except.error _ => none

/-- Enforce the concentration hard barrier for one component: mono-drugs
use the canonical concentration, combos index into the concentration list;
unparseable sides and any numeric or unit difference reject. -/
def concentrationHardBarrier (drug : ParsedDrug)
    (dbConcRaw : Option (List Char)) (componentIdx : Nat := 0) :
    Bool × Option RejectReason :=
  if drug.concentrations = [] then
    (false, some RejectReason.CONCENTRATION_PARSE_FAILED)
  else
    let queryConc? : Option NormalizedConcentration :=
      if drug.is_combo then drug.concentrations[componentIdx]?
      else drug.canonical_concentration
    match queryConc? with
    | none =>
      if drug.is_combo then (false, some RejectReason.CONCENTRATION_MISMATCH)
      else (false, some RejectReason.CONCENTRATION_PARSE_FAILED)
    | some queryConc =>
      match parseDbConcentration dbConcRaw with
      | none => (false, some RejectReason.CONCENTRATION_PARSE_FAILED)
      | some dbConc =>
        if queryConc.matches dbConc then (true, none)
        else (false, some RejectReason.CONCENTRATION_MISMATCH)

/-- Normalize a catalog forma_farmaceutica string through the same Layer 3
pipeline. -/
def normalizeDbForm (rawForm : Option (List Char)) :
    Option (List Char) × Option FormGroup :=
  match rawForm with
  | none => (none, none)
  | some rf =>
    if rf = [] then (none, none)
    else (layer3NormalizeForm (some (lowerL (strip (foldL rf))))).1

/-- Reject candidates whose pharmaceutical form belongs to a different
administration-route group; the check is skipped when the input has no
form group or the catalog form is unrecognized. -/
def formGroupBarrier (queryFormGroup : Option FormGroup)
    (dbFormRaw : Option (List Char)) : Bool × Option RejectReason :=
  match queryFormGroup with
  | none => (true, none)
  | some qg =>
    match (normalizeDbForm dbFormRaw).2 with
    | none => (true, none)
    | some dbg =>
      if dbg = FormGroup.OTHER then (true, none)
      else if qg ≠ dbg then (false, some RejectReason.FORM_GROUP_MISMATCH)
      else (true, none)

/-- Code-point lexicographic order on strings (Python string comparison). -/
def lexLe : List Char → List Char → Bool
  | [], _ => true
  | _ :: _, [] => false
  | a :: as, b :: bs =>
    if a.toNat < b.toNat then true
    else if b.toNat < a.toNat then false
    else lexLe as bs

/-- Join with the combo separator of the INVIMA catalog convention. -/
def joinSlash : List (List Char) → List Char
  | [] => []
  | [x] => x
  | x :: xs => x ++ " / ".data ++ joinSlash xs

/-- Construct the INN string sent to similarity: canonical INNs sorted and
slash-joined. -/
def buildInnQuery (drug : ParsedDrug) : List Char :=
  joinSlash (List.insertionSort (fun a b => lexLe a b = true)
    (drug.components.map (fun c => c.canonical_inn)))

/-- Stage 1: exact match on lowercased principio_activo and
forma_farmaceutica over active rows, limit 10, first row whose
concentration passes the hard barrier. -/
def stage1Exact (db : Db) (drug : ParsedDrug) (innQuery : List Char) :
    Option CatalogRow :=
  let canonicalForm := drug.canonical_form.getD []
  let rows := (db.rows.filter (fun r =>
      lowerL (r.principio_activo.getD []) = innQuery ∧
      lowerL (r.forma_farmaceutica.getD []) = canonicalForm ∧
      r.activo = true)).take 10
  rows.find? (fun r => (concentrationHardBarrier drug r.concentracion).1)

/-- Stage 2 SQL: active rows with similarity above the threshold, ordered
by score descending (stable sort models the unspecified tie order),
capped. -/
def stage2Candidates (db : Db) (innQuery : List Char) :
    List (CatalogRow × Dec) :=
  let scored := (db.rows.filter (fun r => r.activo = true)).map
    (fun r => (r, db.sim (lowerL (r.principio_activo.getD [])) innQuery))
  let filtered := scored.filter (fun rs => TRGM_INN_THRESHOLD.blt rs.2)
  (List.insertionSort
    (fun a b : CatalogRow × Dec => Dec.blt a.2 b.2 = false) filtered).take
    STAGE2_CANDIDATE_LIMIT

/-- The Stage 2 candidates that survive both hard barriers (the loop with
continue statements is a filter). -/
def stage2Survivors (db : Db) (drug : ParsedDrug) (innQuery : List Char) :
    List (CatalogRow × Dec) :=
  (stage2Candidates db innQuery).filter (fun rs =>
    (formGroupBarrier drug.form_group rs.1.forma_farmaceutica).1 &&
    (concentrationHardBarrier drug rs.1.concentracion).1)

/-- Stage 2: keep the surviving candidate whose score strictly exceeds the
running best, starting from zero. -/
def stage2Fuzzy (db : Db) (drug : ParsedDrug) (innQuery : List Char) :
    Option (CatalogRow × Dec) :=
  (stage2Survivors db drug innQuery).foldl
    (fun best rs =>
      match best with
      | none => if Dec.blt ⟨0, 1⟩ rs.2 then some rs else none
      | some b => if Dec.blt b.2 rs.2 then some rs else some b)
    none

/-- Lookup key for the synonym dictionary. -/
def normalizeForDict (raw : List Char) : List Char :=
  collapseWs1 (lowerL (strip (foldL raw)))

/-- Pre-stage synonym dictionary check: first row matching hospital and
normalized key; the hit bypasses all other stages. -/
def checkSynonymDict (db : Db) (rawInput hospitalId : List Char) :
    Option MatchResult :=
  match (db.synonyms.filter (fun e =>
      e.hospital_id = hospitalId ∧
      e.raw_input_normalized = normalizeForDict rawInput)).head? with
  | none => none
  | some e =>
    some ⟨MatchStage.SYNONYM_DICT, e.confidence, some e.cum_id,
          e.medicamento_id, none, none, none, none, none, none, []⟩

/-- Closest candidate for the human review queue: active rows ordered by
similarity, the top row. -/
def closestCandidateForReview (db : Db) (innQuery : List Char) :
    Option ClosestCandidate :=
  let scored := (db.rows.filter (fun r => r.activo = true)).map
    (fun r => (r, db.sim (lowerL (r.principio_activo.getD [])) innQuery))
  match (List.insertionSort
      (fun a b : CatalogRow × Dec => Dec.blt a.2 b.2 = false) scored).head? with
  | none => none
  | some (r, s) =>
    some ⟨r.id_cum, r.id, r.principio_activo, r.forma_farmaceutica,
          r.concentracion, s⟩

/-- Run the full matching pipeline for one ParsedDrug. -/
def matchDrug (db : Db) (drug : ParsedDrug)
    (hospitalId : List Char := "GLOBAL".data) : MatchResult :=
  let parserWarnings := drug.parse_warnings
  if drug.is_matchable = false then
    ⟨MatchStage.NO_MATCH, ⟨0, 1⟩, none, none, none, none, none, none,
     some RejectReason.INPUT_NOT_MATCHABLE, none, parserWarnings⟩
  else
    match checkSynonymDict db drug.raw_input hospitalId with
    | some r => { r with parser_warnings := parserWarnings }
    | none =>
      let innQuery := buildInnQuery drug
      match stage1Exact db drug innQuery with
      | some row =>
        ⟨MatchStage.EXACT, ⟨1, 1⟩, row.id_cum, some row.id,
         row.principio_activo, row.forma_farmaceutica, row.concentracion,
         some ⟨1, 1⟩, none, none, parserWarnings⟩
      | none =>
        match stage2Fuzzy db drug innQuery with
        | some (row, score) =>
          ⟨MatchStage.FUZZY_INN_SAFE, score, row.id_cum, some row.id,
           row.principio_activo, row.forma_farmaceutica, row.concentracion,
           some score, none, none, parserWarnings⟩
        | none =>
          let closest := closestCandidateForReview db innQuery
          ⟨MatchStage.NO_MATCH, ⟨0, 1⟩, none, none, none, none, none, none,
           some (match closest with
                 | none => RejectReason.NO_CANDIDATES
                 | some _ => RejectReason.CONCENTRATION_MISMATCH),
           closest, parserWarnings⟩

/-! ## Price selector (bulk_quote_service.py)

PrecioProveedor rows follow the columns of the precios_proveedor migration:
fecha_publicacion is NOT NULL; dates and timestamps are modelled as
ordinals, float and isoformat conversions as the identity on the value. -/

/-- One supplier price row of the precios_proveedor table. -/
structure PrecioRow where
  proveedor_id : Option (List Char)
  cum_code : List Char
  precio_unitario : Option Dec
  precio_unidad : Option Dec
  precio_presentacion : Option Dec
  porcentaje_iva : Option Dec
  vigente_desde : Option Nat
  vigente_hasta : Option Nat
  fecha_publicacion : Nat
  deriving Repr, DecidableEq

/-- One assembled price dict of the quote result. -/
structure PriceOut where
  proveedor_id : Option (List Char)
  proveedor_nombre : List Char
  proveedor_codigo : Option (List Char)
  precio_unitario : Option Dec
  precio_unidad : Option Dec
  precio_presentacion : Option Dec
  porcentaje_iva : Option Dec
  vigente_desde : Option Nat
  vigente_hasta : Option Nat
  fecha_publicacion : Nat
  deriving Repr, DecidableEq

/-- Assemble the output dict for one price row using the pre-loaded
supplier map (dict.get with the Desconocido default). -/
def priceOutOf (proveedorMap : List (List Char × (List Char × Option (List Char))))
    (p : PrecioRow) : PriceOut :=
  let (pid, nombreProv, codigoProv) :=
    match p.proveedor_id with
    | some pid =>
      match assocLookup proveedorMap pid with
      | some (n, c) => (some pid, n, c)
      | none => (some pid, "Desconocido".data, none)
    | none => (none, "Desconocido".data, none)
  ⟨pid, nombreProv, codigoProv, p.precio_unitario, p.precio_unidad,
   p.precio_presentacion, p.porcentaje_iva, p.vigente_desde,
   p.vigente_hasta, p.fecha_publicacion⟩

/-- All published prices for a code, ordered by fecha_publicacion
descending, capped at twenty; the first item is the most recently
published price. -/
def getPreciosParaCum (precios : List PrecioRow) (cumCode : List Char)
    (proveedorMap : List (List Char × (List Char × Option (List Char)))) :
    List PriceOut :=
  let rows :=
    (List.insertionSort
      (fun a b : PrecioRow => b.fecha_publicacion ≤ a.fecha_publicacion)
      (precios.filter (fun p => p.cum_code = cumCode))).take 20
  rows.map (priceOutOf proveedorMap)

/-! ## Concrete fixtures for the scenario of claim C4: same INN, catalog
form solucion inyectable against input form solucion oral, identical
concentration, similarity above the Stage 2 threshold. -/

def c4Drug : ParsedDrug :=
  ⟨"metronidazol 500mg solucion oral".data,
   [⟨"metronidazol".data, "metronidazol".data, []⟩],
   [⟨"500mg".data, ⟨500, 1⟩, "mg".data, ConcEncoding.inline⟩],
   some "solucion oral".data, some "solucion oral".data,
   some FormGroup.ORAL_LIQUID, []⟩

def c4Row : CatalogRow :=
  ⟨1, some "123-01".data, some "metronidazol".data,
   some "solucion inyectable".data, none, some "500mg".data, true⟩

def c4Db : Db := ⟨[c4Row], fun _ _ => ⟨9, 10⟩, []⟩

/-- Shape of every number capture of the dose regexes: digits, or digits
separated once by a dot or a comma. -/
def NumShape (num : List Char) : Prop :=
  (num ≠ [] ∧ num.all Char.isDigit = true) ∨
  ∃ d1 sep d2, num = d1 ++ sep :: d2 ∧ (sep = '.' ∨ sep = ',') ∧
    d1 ≠ [] ∧ d2 ≠ [] ∧ d1.all Char.isDigit = true ∧ d2.all Char.isDigit = true

/-! ## Generic helper lemmas -/

theorem charLookup_mem {ps : List (Char × Char)} {c d : Char}
    (h : charLookup ps c = some d) : (c, d) ∈ ps := by
  induction ps with
  | nil => simp [charLookup] at h
  | cons p rest ih =>
    obtain ⟨k, v⟩ := p
    rw [charLookup] at h
    by_cases hc : c = k
    · subst hc
      rw [if_pos rfl] at h
      injection h with h
      subst h
      exact List.mem_cons_self _ _
    · rw [if_neg hc] at h
      exact List.mem_cons_of_mem _ (ih h)

theorem assocLookup_mem {α : Type} {ps : List (List Char × α)} {k : List Char}
    {v : α} (h : assocLookup ps k = some v) : (k, v) ∈ ps := by
  induction ps with
  | nil => simp [assocLookup] at h
  | cons p rest ih =>
    obtain ⟨k', v'⟩ := p
    rw [assocLookup] at h
    by_cases hc : k = k'
    · subst hc
      rw [if_pos rfl] at h
      injection h with h
      subst h
      exact List.mem_cons_self _ _
    · rw [if_neg hc] at h
      exact List.mem_cons_of_mem _ (ih h)

/-! ## Claim C1 -/

/-- C1 counterexample: two NormalizedConcentration values whose unit
strings differ (only in case) but which match, refuting the claim that
value inequality or unit string inequality always makes matches false. -/
theorem c1_counterexample :
    ∃ a b : NormalizedConcentration,
      a.unit ≠ b.unit ∧ a.matches b = true :=
  ⟨⟨"325mg".data, ⟨325, 1⟩, "mg".data, ConcEncoding.inline⟩,
   ⟨"325MG".data, ⟨325, 1⟩, "MG".data, ConcEncoding.inline⟩,
   by decide, by decide⟩

/-- C1 (amended): matches is false whenever the values differ numerically
or the units differ case-insensitively; in particular a 325 mg
concentration never matches a 500 mg concentration (witness below). -/
theorem c1_matches_false_of_ne (a b : NormalizedConcentration)
    (h : a.value.eqv b.value = false ∨ lowerL a.unit ≠ lowerL b.unit) :
    a.matches b = false := by
  unfold NormalizedConcentration.matches
  rcases h with h | h
  · simp [h]
  · simp [h]

/-- C1 witness: the amended theorem applied to the 325 mg / 500 mg pair. -/
theorem c1_matches_false_witness :
    ((⟨"325mg".data, ⟨325, 1⟩, "mg".data, ConcEncoding.inline⟩ :
        NormalizedConcentration).value.eqv
      (⟨"500mg".data, ⟨500, 1⟩, "mg".data, ConcEncoding.inline⟩ :
        NormalizedConcentration).value = false) ∧
    (⟨"325mg".data, ⟨325, 1⟩, "mg".data, ConcEncoding.inline⟩ :
        NormalizedConcentration).matches
      ⟨"500mg".data, ⟨500, 1⟩, "mg".data, ConcEncoding.inline⟩ = false :=
  ⟨by decide,
   c1_matches_false_of_ne _ _ (Or.inl (by decide))⟩

/-! ## Claim C9 -/

/-- C9: the form-group barrier passes whenever the input has no form group,
and also whenever the catalog form normalizes to no group (absent or empty
form string) or to the OTHER group (unrecognized form), even when the
input's group is known. -/
theorem c9_form_barrier_passes (q : Option FormGroup)
    (dbRaw : Option (List Char))
    (h : q = none ∨ (normalizeDbForm dbRaw).2 = none ∨
         (normalizeDbForm dbRaw).2 = some FormGroup.OTHER) :
    formGroupBarrier q dbRaw = (true, none) := by
  unfold formGroupBarrier
  rcases h with h | h | h
  · simp [h]
  · cases q with
    | none => rfl
    | some qg => simp [h]
  · cases q with
    | none => rfl
    | some qg => simp [h]

/-- C9 witness: a known input group with an unrecognized catalog form. -/
theorem c9_form_barrier_witness :
    ((normalizeDbForm (some "forma rara".data)).2 = some FormGroup.OTHER) ∧
    formGroupBarrier (some FormGroup.ORAL_LIQUID) (some "forma rara".data) =
      (true, none) :=
  ⟨by decide,
   c9_form_barrier_passes _ _ (Or.inr (Or.inr (by decide)))⟩

/-! ## Claim C10 -/

/-- C10: for a combo ParsedDrug (more than one component) the derived
canonical_concentration is none even when concentrations are present; the
concentration hard barrier compares using the concentration at the
component index, and rejects with CONCENTRATION_MISMATCH when that index is
out of range of a nonempty concentration list. -/
theorem c10_combo_concentration (p : ParsedDrug) (idx : Nat)
    (dbRaw : Option (List Char)) (hcombo : 1 < p.components.length) :
    p.canonical_concentration = none ∧
    (p.concentrations ≠ [] → p.concentrations.length ≤ idx →
      concentrationHardBarrier p dbRaw idx =
        (false, some RejectReason.CONCENTRATION_MISMATCH)) ∧
    (∀ q, p.concentrations[idx]? = some q →
      concentrationHardBarrier p dbRaw idx =
        match parseDbConcentration dbRaw with
        | none => (false, some RejectReason.CONCENTRATION_PARSE_FAILED)
        | some dbc =>
          if q.matches dbc then (true, none)
          else (false, some RejectReason.CONCENTRATION_MISMATCH)) := by
  have hc : p.is_combo = true := by
    simp [ParsedDrug.is_combo, hcombo]
  refine ⟨?_, ?_, ?_⟩
  · unfold ParsedDrug.canonical_concentration
    simp [hc]
  · intro hne hlen
    unfold concentrationHardBarrier
    rw [if_neg hne]
    simp [hc, List.getElem?_eq_none hlen]
  · intro q hq
    have hne : p.concentrations ≠ [] := by
      intro h
      rw [h] at hq
      simp at hq
    unfold concentrationHardBarrier
    rw [if_neg hne]
    simp only [hc, if_true, hq]

/-- C10 witness: a two-component drug with two concentrations, probed at an
out-of-range index and at index one. -/
theorem c10_combo_concentration_witness :
    (1 <
      (⟨"a + b".data,
        [⟨"acetaminofen".data, "acetaminofen".data, []⟩,
         ⟨"codeina".data, "codeina".data, []⟩],
        [⟨"325mg".data, ⟨325, 1⟩, "mg".data, ConcEncoding.inline⟩,
         ⟨"15mg".data, ⟨15, 1⟩, "mg".data, ConcEncoding.inline⟩],
        some "tableta".data, some "tableta".data,
        some FormGroup.ORAL_SOLID, []⟩ : ParsedDrug).components.length) ∧
    (⟨"a + b".data,
      [⟨"acetaminofen".data, "acetaminofen".data, []⟩,
       ⟨"codeina".data, "codeina".data, []⟩],
      [⟨"325mg".data, ⟨325, 1⟩, "mg".data, ConcEncoding.inline⟩,
       ⟨"15mg".data, ⟨15, 1⟩, "mg".data, ConcEncoding.inline⟩],
      some "tableta".data, some "tableta".data,
      some FormGroup.ORAL_SOLID, []⟩ : ParsedDrug).canonical_concentration
      = none ∧
    concentrationHardBarrier
      ⟨"a + b".data,
       [⟨"acetaminofen".data, "acetaminofen".data, []⟩,
        ⟨"codeina".data, "codeina".data, []⟩],
       [⟨"325mg".data, ⟨325, 1⟩, "mg".data, ConcEncoding.inline⟩,
        ⟨"15mg".data, ⟨15, 1⟩, "mg".data, ConcEncoding.inline⟩],
       some "tableta".data, some "tableta".data,
       some FormGroup.ORAL_SOLID, []⟩
      (some "325mg".data) 5 =
      (false, some RejectReason.CONCENTRATION_MISMATCH) := by
  refine ⟨by decide, ?_, ?_⟩
  · exact (c10_combo_concentration _ 5 (some "325mg".data) (by decide)).1
  · exact (c10_combo_concentration _ 5 (some "325mg".data) (by decide)).2.1
      (by decide) (by decide)

/-! ## Split and digit-string lemmas for the decimal locale claims -/

theorem splitOnChar_not_mem {sep : Char} {l : List Char} (h : sep ∉ l) :
    splitOnChar sep l = [l] := by
  induction l with
  | nil => rfl
  | cons c rest ih =>
    rw [splitOnChar]
    have hc : ¬ c = sep := fun he => h (he ▸ List.mem_cons_self c rest)
    rw [if_neg hc, ih (fun hm => h (List.mem_cons_of_mem _ hm))]

theorem splitOnChar_sep_append {sep : Char} {pre rest : List Char}
    (h : sep ∉ pre) :
    splitOnChar sep (pre ++ sep :: rest) = pre :: splitOnChar sep rest := by
  induction pre with
  | nil => simp [splitOnChar]
  | cons c cs ih =>
    have hc : ¬ c = sep := fun he => h (he ▸ List.mem_cons_self c cs)
    rw [List.cons_append, splitOnChar, if_neg hc,
      ih (fun hm => h (List.mem_cons_of_mem _ hm))]

theorem splitOnChar_ne_nil (sep : Char) (l : List Char) :
    splitOnChar sep l ≠ [] := by
  induction l with
  | nil => simp [splitOnChar]
  | cons c rest ih =>
    rw [splitOnChar]
    by_cases hc : c = sep
    · simp [hc]
    · rw [if_neg hc]
      cases hsp : splitOnChar sep rest with
      | nil => exact absurd hsp ih
      | cons p ps => simp

theorem splitOnChar_length (sep : Char) (l : List Char) :
    (splitOnChar sep l).length = l.count sep + 1 := by
  induction l with
  | nil => simp [splitOnChar]
  | cons c rest ih =>
    rw [splitOnChar]
    by_cases hc : c = sep
    · subst hc
      rw [if_pos rfl]
      simp [List.count_cons, ih]
    · rw [if_neg hc]
      cases hsp : splitOnChar sep rest with
      | nil => exact absurd hsp (splitOnChar_ne_nil sep rest)
      | cons p ps =>
        have h2 := ih
        rw [hsp] at h2
        simp only [List.length_cons] at h2 ⊢
        simp [List.count_cons, hc, Ne.symm hc] at *
        omega

theorem not_mem_of_all_digit {c : Char} {ds : List Char}
    (hc : c.isDigit = false) (h : ds.all Char.isDigit = true) : c ∉ ds := by
  intro hm
  have := List.all_eq_true.mp h _ hm
  rw [this] at hc
  exact Bool.true_eq_false.mp hc

theorem decOfString_digits {ds : List Char} (h1 : ds ≠ [])
    (h2 : ds.all Char.isDigit = true) :
    decOfString ds = some ⟨(natVal ds : Int), 1⟩ := by
  unfold decOfString
  rw [splitOnChar_not_mem (not_mem_of_all_digit (by decide) h2)]
  simp only [decOfParts]
  rw [if_pos ⟨h1, h2⟩]

theorem decOfString_point {d1 d2 : List Char} (h1 : d1.all Char.isDigit = true)
    (h2 : d2.all Char.isDigit = true) (hne : (d1 ++ d2) ≠ []) :
    decOfString (d1 ++ '.' :: d2) =
      some ⟨(natVal d1 * 10 ^ d2.length + natVal d2 : Int), 10 ^ d2.length⟩ := by
  unfold decOfString
  rw [splitOnChar_sep_append (not_mem_of_all_digit (by decide) h1),
    splitOnChar_not_mem (not_mem_of_all_digit (by decide) h2)]
  simp only [decOfParts]
  rw [if_pos ⟨hne, h1, h2⟩]

/-! ## Claim C6 -/

/-- C6: for a numeric token with exactly one comma, a three-digit tail is a
thousands separator (no warning), a one-or-two-digit tail is a decimal
separator (no warning), a four-or-more-digit tail is read as a decimal with
the AMBIGUOUS_DECIMAL warning, and a token with two or more commas gets the
AMBIGUOUS_DECIMAL warning and is resolved by stripping the commas. -/
theorem c6_decimal_locale (ds1 ds2 : List Char) (h1 : ds1 ≠ [])
    (h2 : ds2 ≠ []) (hd1 : ds1.all Char.isDigit = true)
    (hd2 : ds2.all Char.isDigit = true) :
    (ds2.length = 3 →
      resolveDecimalLocale (ds1 ++ ',' :: ds2) =
        Except.ok (⟨(natVal (ds1 ++ ds2) : Int), 1⟩, [])) ∧
    (ds2.length = 1 ∨ ds2.length = 2 →
      resolveDecimalLocale (ds1 ++ ',' :: ds2) =
        Except.ok (⟨(natVal ds1 * 10 ^ ds2.length + natVal ds2 : Int),
                    10 ^ ds2.length⟩, [])) ∧
    (4 ≤ ds2.length →
      resolveDecimalLocale (ds1 ++ ',' :: ds2) =
        Except.ok (⟨(natVal ds1 * 10 ^ ds2.length + natVal ds2 : Int),
                    10 ^ ds2.length⟩, [AMBIGUOUS_DECIMAL])) ∧
    (∀ t : List Char, t.all (fun c => c.isDigit || c == ',') = true →
      2 ≤ t.count ',' → t.filter Char.isDigit ≠ [] →
      resolveDecimalLocale t =
        Except.ok (⟨(natVal (t.filter Char.isDigit) : Int), 1⟩,
                   [AMBIGUOUS_DECIMAL])) := by
  have hnospace : (ds1 ++ ',' :: ds2).filter (fun c => c ≠ ' ') =
      ds1 ++ ',' :: ds2 := by
    rw [List.filter_eq_self]
    intro a ha
    rcases List.mem_append.mp ha with ha | ha
    · have := List.all_eq_true.mp hd1 _ ha
      simp only [decide_eq_true_eq]
      intro he
      subst he
      simp at this
    · rcases List.mem_cons.mp ha with ha | ha
      · subst ha; decide
      · have := List.all_eq_true.mp hd2 _ ha
        simp only [decide_eq_true_eq]
        intro he
        subst he
        simp at this
  have hcontains : (ds1 ++ ',' :: ds2).contains ',' = true := by
    simp [List.contains]
  have hsplit : splitOnChar ',' (ds1 ++ ',' :: ds2) = [ds1, ds2] := by
    rw [splitOnChar_sep_append (not_mem_of_all_digit (by decide) hd1),
      splitOnChar_not_mem (not_mem_of_all_digit (by decide) hd2)]
  have happne : ds1 ++ ds2 ≠ [] := by
    intro he
    exact h1 (List.append_eq_nil.mp he).1
  have hdispatch : resolveDecimalLocale (ds1 ++ ',' :: ds2) =
      resolveTwoParts (ds1 ++ ',' :: ds2) ds1 ds2 := by
    unfold resolveDecimalLocale
    rw [hnospace]
    unfold resolveCleaned
    rw [if_pos hcontains, hsplit]
  refine ⟨?_, ?_, ?_, ?_⟩
  · intro hlen
    rw [hdispatch]
    unfold resolveTwoParts
    rw [if_pos ⟨hlen, hd2⟩,
      decOfString_digits happne (by simp [List.all_append, hd1, hd2])]
  · intro hlen
    rw [hdispatch]
    unfold resolveTwoParts
    have hne3 : ¬ (ds2.length = 3 ∧ ds2.all Char.isDigit = true) := by
      rintro ⟨h3, -⟩
      rcases hlen with h | h <;> omega
    rw [if_neg hne3, if_pos hlen, decOfString_point hd1 hd2 happne]
  · intro hlen
    rw [hdispatch]
    unfold resolveTwoParts
    have hne3 : ¬ (ds2.length = 3 ∧ ds2.all Char.isDigit = true) := by
      rintro ⟨h3, -⟩
      omega
    have hne12 : ¬ (ds2.length = 1 ∨ ds2.length = 2) := by
      rintro (h | h) <;> omega
    rw [if_neg hne3, if_neg hne12, if_pos hlen,
      decOfString_point hd1 hd2 happne]
  · intro t hall hcount hfne
    have hnosp : t.filter (fun c => c ≠ ' ') = t := by
      rw [List.filter_eq_self]
      intro a ha
      have := List.all_eq_true.mp hall _ ha
      simp only [decide_eq_true_eq]
      intro he
      subst he
      simp at this
    have hcont : t.contains ',' = true := by
      have : ',' ∈ t := List.count_pos_iff.mp (by omega)
      simp [List.contains, this]
    have hfilter : t.filter (fun c => c ≠ ',') = t.filter Char.isDigit := by
      apply List.filter_congr
      intro a ha
      have hda := List.all_eq_true.mp hall _ ha
      simp only [Bool.or_eq_true, beq_iff_eq] at hda
      rcases hda with hd | hc
      · simp [hd]
        intro he
        subst he
        simp at hd
      · subst hc
        simp
    have hlen3 : 3 ≤ (splitOnChar ',' t).length := by
      rw [splitOnChar_length]
      omega
    have hfall : (t.filter Char.isDigit).all Char.isDigit = true := by
      rw [List.all_eq_true]
      intro x hx
      exact (List.mem_filter.mp hx).2
    unfold resolveDecimalLocale
    rw [hnosp]
    unfold resolveCleaned
    rw [if_pos hcont]
    cases hsp : splitOnChar ',' t with
    | nil => exact absurd hsp (splitOnChar_ne_nil ',' t)
    | cons a rest =>
      cases rest with
      | nil => rw [hsp] at hlen3; simp at hlen3
      | cons b rest2 =>
        cases rest2 with
        | nil => rw [hsp] at hlen3; simp at hlen3
        | cons c rest3 =>
          unfold decimalStrippingCommas
          rw [hfilter, decOfString_digits hfne hfall]

/-- C6 witness: the theorem applied to the four concrete shapes of the
claim: a thousands separator, a decimal comma, an over-long decimal tail
and a multi-comma token. -/
theorem c6_decimal_locale_witness :
    resolveDecimalLocale "25,000".data = Except.ok (⟨25000, 1⟩, []) ∧
    resolveDecimalLocale "37,5".data = Except.ok (⟨375, 10⟩, []) ∧
    resolveDecimalLocale "1,23456".data =
      Except.ok (⟨123456, 100000⟩, [AMBIGUOUS_DECIMAL]) ∧
    resolveDecimalLocale "1,2,3".data =
      Except.ok (⟨123, 1⟩, [AMBIGUOUS_DECIMAL]) := by
  refine ⟨?_, ?_, ?_, ?_⟩
  · show resolveDecimalLocale ("25".data ++ ',' :: "000".data) = _
    rw [(c6_decimal_locale "25".data "000".data (by decide) (by decide)
      (by decide) (by decide)).1 (by decide)]
    rfl
  · show resolveDecimalLocale ("37".data ++ ',' :: "5".data) = _
    rw [(c6_decimal_locale "37".data "5".data (by decide) (by decide)
      (by decide) (by decide)).2.1 (Or.inl (by decide))]
    rfl
  · show resolveDecimalLocale ("1".data ++ ',' :: "23456".data) = _
    rw [(c6_decimal_locale "1".data "23456".data (by decide) (by decide)
      (by decide) (by decide)).2.2.1 (by decide)]
    rfl
  · rw [(c6_decimal_locale "9".data "9".data (by decide) (by decide)
      (by decide) (by decide)).2.2.2 "1,2,3".data (by decide) (by decide)
      (by decide)]
    rfl

/-! ## Claim C5 -/

/-- C5: a bracket content matching the ratio shape with resolved numerator
and denominator values yields, for a nonzero denominator, a concentration
whose value is the exact quotient, whose unit is the canonicalized compound
unit of the two canonicalized sides, with bracket-ratio encoding, carrying
the warnings of the two number resolutions; a zero denominator yields no
concentration and appends the UNPARSEABLE_BRACKET warning. -/
theorem c5_bracket_ratio (content n1 u1 n2 u2 : List Char)
    (hm : bracketRatioFullmatch (strip content) = some (n1, u1, n2, u2))
    (v1 v2 : Dec) (w1 w2 : List (List Char))
    (hr1 : resolveDecimalLocale n1 = Except.ok (v1, w1))
    (hr2 : resolveDecimalLocale n2 = Except.ok (v2, w2)) :
    (v2.isZero = false →
      parseBracketConcentration content =
        Except.ok (some ⟨content, v1.div v2,
          canonicalizeUnit (canonicalizeUnit u1 ++ '/' :: canonicalizeUnit u2),
          ConcEncoding.bracketRatioEnc⟩, w1 ++ w2)) ∧
    (v2.isZero = true →
      parseBracketConcentration content =
        Except.ok (none, w1 ++ w2 ++ [UNPARSEABLE_BRACKET])) := by
  constructor <;> intro hz <;>
    simp only [parseBracketConcentration, hm, hr1, hr2, hz, Bool.false_eq_true,
      if_false, if_true]

/-- C5 witness: the bracket content of the round-trip scenario and its
zero-denominator variant. -/
theorem c5_bracket_ratio_witness :
    ∃ c : NormalizedConcentration,
      parseBracketConcentration "100mg/5mL".data = Except.ok (some c, []) ∧
      c.value.toRat = 20 ∧ c.unit = "mg/mL".data ∧
      c.encoding = ConcEncoding.bracketRatioEnc ∧
      parseBracketConcentration "100mg/0mL".data =
        Except.ok (none, [UNPARSEABLE_BRACKET]) := by
  refine ⟨⟨"100mg/5mL".data, Dec.div ⟨100, 1⟩ ⟨5, 1⟩,
    canonicalizeUnit (canonicalizeUnit "mg".data ++ '/' ::
      canonicalizeUnit "mL".data), ConcEncoding.bracketRatioEnc⟩,
    ?_, ?_, rfl, rfl, ?_⟩
  · have h := (c5_bracket_ratio "100mg/5mL".data "100".data "mg".data
      "5".data "mL".data rfl ⟨100, 1⟩ ⟨5, 1⟩ [] [] rfl rfl).1 rfl
    simpa using h
  · show Dec.toRat ⟨100, 5⟩ = 20
    norm_num [Dec.toRat]
  · have h := (c5_bracket_ratio "100mg/0mL".data "100".data "mg".data
      "0".data "mL".data rfl ⟨100, 1⟩ ⟨0, 1⟩ [] [] rfl rfl).2 rfl
    simpa using h

/-! ## Claim C7 -/

theorem priceOutOf_fecha
    (pm : List (List Char × (List Char × Option (List Char))))
    (p : PrecioRow) :
    (priceOutOf pm p).fecha_publicacion = p.fecha_publicacion := by
  unfold priceOutOf
  cases hp : p.proveedor_id with
  | none => rfl
  | some pid =>
    cases hl : assocLookup pm pid with
    | none => rfl
    | some nc => obtain ⟨n, c⟩ := nc; rfl

/-- C7: the price selector returns only rows of the requested code, capped
at twenty, ordered by publication timestamp descending, and every returned
row's timestamp is bounded by the timestamp at index zero. -/
theorem c7_price_selector (precios : List PrecioRow) (cumCode : List Char)
    (pm : List (List Char × (List Char × Option (List Char)))) :
    (getPreciosParaCum precios cumCode pm).length ≤ 20 ∧
    (getPreciosParaCum precios cumCode pm).Pairwise
      (fun a b => b.fecha_publicacion ≤ a.fecha_publicacion) ∧
    (∀ x ∈ getPreciosParaCum precios cumCode pm,
      ∃ p ∈ precios, p.cum_code = cumCode ∧ x = priceOutOf pm p) ∧
    (∀ x ∈ getPreciosParaCum precios cumCode pm,
      ∀ y ∈ (getPreciosParaCum precios cumCode pm).head?,
        x.fecha_publicacion ≤ y.fecha_publicacion) := by
  haveI htot : IsTotal PrecioRow
      (fun a b => b.fecha_publicacion ≤ a.fecha_publicacion) :=
    ⟨fun a b => le_total b.fecha_publicacion a.fecha_publicacion⟩
  haveI htr : IsTrans PrecioRow
      (fun a b => b.fecha_publicacion ≤ a.fecha_publicacion) :=
    ⟨fun _ _ _ hab hbc => le_trans hbc hab⟩
  have hsorted : List.Sorted
      (fun a b : PrecioRow => b.fecha_publicacion ≤ a.fecha_publicacion)
      (List.insertionSort
        (fun a b : PrecioRow => b.fecha_publicacion ≤ a.fecha_publicacion)
        (precios.filter (fun p => p.cum_code = cumCode))) :=
    List.sorted_insertionSort _ _
  have hsortedTake := hsorted.sublist (List.take_sublist 20 _)
  have houtSorted : (getPreciosParaCum precios cumCode pm).Pairwise
      (fun a b => b.fecha_publicacion ≤ a.fecha_publicacion) := by
    unfold getPreciosParaCum
    rw [List.pairwise_map]
    exact hsortedTake.imp (fun hab => by
      rw [priceOutOf_fecha, priceOutOf_fecha]; exact hab)
  refine ⟨?_, houtSorted, ?_, ?_⟩
  · unfold getPreciosParaCum
    rw [List.length_map]
    exact List.length_take_le 20 _
  · intro x hx
    unfold getPreciosParaCum at hx
    obtain ⟨p, hp, rfl⟩ := List.mem_map.mp hx
    have hp2 : p ∈ List.insertionSort
        (fun a b : PrecioRow => b.fecha_publicacion ≤ a.fecha_publicacion)
        (precios.filter (fun q => q.cum_code = cumCode)) :=
      (List.take_sublist 20 _).subset hp
    have hp3 : p ∈ precios.filter (fun q => q.cum_code = cumCode) :=
      (List.perm_insertionSort _ _).mem_iff.mp hp2
    have hp4 := List.mem_filter.mp hp3
    exact ⟨p, hp4.1, by simpa using hp4.2, rfl⟩
  · intro x hx y hy
    cases hout : getPreciosParaCum precios cumCode pm with
    | nil => rw [hout] at hy; simp at hy
    | cons y0 rest =>
      rw [hout] at hy hx
      simp only [List.head?_cons, Option.mem_def, Option.some.injEq] at hy
      subst hy
      have hpw := houtSorted
      rw [hout] at hpw
      rcases List.mem_cons.mp hx with rfl | hx
      · exact le_refl _
      · exact (List.pairwise_cons.mp hpw).1 x hx

/-- C7 witness: two prices for one code published at ordinals 105 and 210;
the selector keeps both, and the older row's timestamp is bounded by the
timestamp at index zero. -/
theorem c7_price_selector_witness :
    (getPreciosParaCum
      [⟨none, "C".data, none, none, none, none, none, none, 105⟩,
       ⟨none, "C".data, none, none, none, none, none, none, 210⟩]
      "C".data []).length ≤ 20 ∧
    (priceOutOf [] ⟨none, "C".data, none, none, none, none, none, none, 105⟩
      ).fecha_publicacion ≤
    (priceOutOf [] ⟨none, "C".data, none, none, none, none, none, none, 210⟩
      ).fecha_publicacion := by
  refine ⟨(c7_price_selector _ _ _).1, ?_⟩
  exact (c7_price_selector
    [⟨none, "C".data, none, none, none, none, none, none, 105⟩,
     ⟨none, "C".data, none, none, none, none, none, none, 210⟩]
    "C".data []).2.2.2
    (priceOutOf [] ⟨none, "C".data, none, none, none, none, none, none, 105⟩)
    (by decide)
    (priceOutOf [] ⟨none, "C".data, none, none, none, none, none, none, 210⟩)
    (by decide)

/-! ## Matcher case-analysis helpers -/

theorem checkSynonymDict_stage {db : Db} {raw hosp : List Char}
    {r : MatchResult} (h : checkSynonymDict db raw hosp = some r) :
    r.stage = MatchStage.SYNONYM_DICT := by
  unfold checkSynonymDict at h
  cases hh : (db.synonyms.filter (fun e =>
      e.hospital_id = hosp ∧ e.raw_input_normalized = normalizeForDict raw)).head? with
  | none => rw [hh] at h; exact absurd h (by simp)
  | some e =>
    rw [hh] at h
    simp only [Option.some.injEq] at h
    rw [← h]

/-! ## Claim C2 -/

/-- C2: is_matchable is false exactly when the warnings contain
COMPONENT_COUNT_MISMATCH or AMBIGUOUS_DECIMAL, and in that case match_drug
returns, for every database state and hospital (so without consulting the
synonym dictionary or any catalog stage), the NO_MATCH result with reject
reason INPUT_NOT_MATCHABLE carrying the parser warnings. -/
theorem c2_not_matchable_no_match (db : Db) (drug : ParsedDrug)
    (hospitalId : List Char) :
    (drug.is_matchable = false ↔
      (COMPONENT_COUNT_MISMATCH ∈ drug.parse_warnings ∨
       AMBIGUOUS_DECIMAL ∈ drug.parse_warnings)) ∧
    (COMPONENT_COUNT_MISMATCH ∈ drug.parse_warnings ∨
       AMBIGUOUS_DECIMAL ∈ drug.parse_warnings →
      matchDrug db drug hospitalId =
        ⟨MatchStage.NO_MATCH, ⟨0, 1⟩, none, none, none, none, none, none,
         some RejectReason.INPUT_NOT_MATCHABLE, none, drug.parse_warnings⟩) := by
  have hiff : drug.is_matchable = false ↔
      (COMPONENT_COUNT_MISMATCH ∈ drug.parse_warnings ∨
       AMBIGUOUS_DECIMAL ∈ drug.parse_warnings) := by
    unfold ParsedDrug.is_matchable
    simp [List.elem_iff]
    tauto
  refine ⟨hiff, fun h => ?_⟩
  have hm : drug.is_matchable = false := hiff.mpr h
  simp [matchDrug, hm]

/-- C2 witness: a drug carrying the AMBIGUOUS_DECIMAL warning against a
nonempty database. -/
theorem c2_not_matchable_witness :
    (AMBIGUOUS_DECIMAL ∈
      (⟨"x 2,5,0mg".data, [⟨"x".data, "x".data, []⟩],
        [⟨"250mg".data, ⟨250, 1⟩, "mg".data, ConcEncoding.inline⟩],
        none, none, none, [AMBIGUOUS_DECIMAL]⟩ :
          ParsedDrug).parse_warnings) ∧
    matchDrug c4Db
      ⟨"x 2,5,0mg".data, [⟨"x".data, "x".data, []⟩],
       [⟨"250mg".data, ⟨250, 1⟩, "mg".data, ConcEncoding.inline⟩],
       none, none, none, [AMBIGUOUS_DECIMAL]⟩ "H".data =
      ⟨MatchStage.NO_MATCH, ⟨0, 1⟩, none, none, none, none, none, none,
       some RejectReason.INPUT_NOT_MATCHABLE, none, [AMBIGUOUS_DECIMAL]⟩ :=
  ⟨by decide,
   (c2_not_matchable_no_match c4Db _ "H".data).2 (Or.inr (by decide))⟩

/-! ## Claim C4 -/

/-- C4 counterexample: in the scenario of the claim (same INN, catalog form
solucion inyectable, input form solucion oral, equal concentration, Stage 2
similarity above threshold) the form-group barrier does reject the
candidate with FORM_GROUP_MISMATCH internally, but the returned NO_MATCH
carries CONCENTRATION_MISMATCH, not FORM_GROUP_MISMATCH. -/
theorem c4_counterexample :
    formGroupBarrier c4Drug.form_group c4Row.forma_farmaceutica =
      (false, some RejectReason.FORM_GROUP_MISMATCH) ∧
    (matchDrug c4Db c4Drug "H".data).stage = MatchStage.NO_MATCH ∧
    (matchDrug c4Db c4Drug "H".data).reject_reason =
      some RejectReason.CONCENTRATION_MISMATCH ∧
    (matchDrug c4Db c4Drug "H".data).reject_reason ≠
      some RejectReason.FORM_GROUP_MISMATCH := by
  refine ⟨by decide, by decide, by decide, by decide⟩

/-- C4 (amended): Stage 2 rejects such a candidate and the barrier's
internal reason is FORM_GROUP_MISMATCH, but reject reasons of the barriers
are not attached to the final result: a NO_MATCH result carries only
INPUT_NOT_MATCHABLE, NO_CANDIDATES, or CONCENTRATION_MISMATCH (the latter
whenever any closest candidate exists), never FORM_GROUP_MISMATCH. -/
theorem c4_no_match_reject (db : Db) (drug : ParsedDrug) (hosp : List Char)
    (g g' : FormGroup) (dbRaw : Option (List Char))
    (hg : (normalizeDbForm dbRaw).2 = some g') (hne : g' ≠ FormGroup.OTHER)
    (hdiff : g ≠ g') :
    formGroupBarrier (some g) dbRaw =
      (false, some RejectReason.FORM_GROUP_MISMATCH) ∧
    ((matchDrug db drug hosp).stage = MatchStage.NO_MATCH →
      (matchDrug db drug hosp).reject_reason =
          some RejectReason.INPUT_NOT_MATCHABLE ∨
      (matchDrug db drug hosp).reject_reason =
          some RejectReason.NO_CANDIDATES ∨
      (matchDrug db drug hosp).reject_reason =
          some RejectReason.CONCENTRATION_MISMATCH) := by
  constructor
  · unfold formGroupBarrier
    rw [hg]
    show (if g' = FormGroup.OTHER then ((true : Bool), (none : Option RejectReason))
      else if g ≠ g' then (false, some RejectReason.FORM_GROUP_MISMATCH)
      else (true, none)) = _
    rw [if_neg hne, if_pos hdiff]
  · intro hstage
    by_cases hm : drug.is_matchable = false
    · left
      simp [matchDrug, hm]
    · cases hd : checkSynonymDict db drug.raw_input hosp with
      | some r =>
        exfalso
        have hst := checkSynonymDict_stage hd
        simp only [matchDrug, if_neg hm, hd] at hstage
        rw [hst] at hstage
        exact absurd hstage (by decide)
      | none =>
        cases h1 : stage1Exact db drug (buildInnQuery drug) with
        | some row =>
          exfalso
          simp only [matchDrug, if_neg hm, hd, h1] at hstage
          exact absurd hstage (by decide)
        | none =>
          cases h2 : stage2Fuzzy db drug (buildInnQuery drug) with
          | some rs =>
            exfalso
            obtain ⟨row, score⟩ := rs
            simp only [matchDrug, if_neg hm, hd, h1, h2] at hstage
            exact absurd hstage (by decide)
          | none =>
            simp only [matchDrug, if_neg hm, hd, h1, h2]
            cases closestCandidateForReview db (buildInnQuery drug) with
            | none => right; left; rfl
            | some c => right; right; rfl

/-- C4 witness: the amended theorem applied to the concrete scenario. -/
theorem c4_no_match_reject_witness :
    ((normalizeDbForm c4Row.forma_farmaceutica).2 =
      some FormGroup.INJECTABLE) ∧
    ((matchDrug c4Db c4Drug "H".data).stage = MatchStage.NO_MATCH) ∧
    ((matchDrug c4Db c4Drug "H".data).reject_reason =
        some RejectReason.INPUT_NOT_MATCHABLE ∨
     (matchDrug c4Db c4Drug "H".data).reject_reason =
        some RejectReason.NO_CANDIDATES ∨
     (matchDrug c4Db c4Drug "H".data).reject_reason =
        some RejectReason.CONCENTRATION_MISMATCH) :=
  ⟨by decide, by decide,
   (c4_no_match_reject c4Db c4Drug "H".data FormGroup.ORAL_LIQUID
     FormGroup.INJECTABLE c4Row.forma_farmaceutica (by decide) (by decide)
     (by decide)).2 (by decide)⟩

/-! ## Number-capture shape lemmas for claim C8 -/

theorem matchNumAt_shape {l num rest : List Char}
    (h : matchNumAt l = some (num, rest)) : NumShape num := by
  unfold matchNumAt at h
  cases l with
  | nil => simp at h
  | cons c ls =>
    by_cases hc : c.isDigit = true
    · simp only [hc, if_pos] at h
      have htw : ((c :: ls).takeWhile Char.isDigit) ≠ [] := by
        rw [List.takeWhile_cons, if_pos hc]
        simp
      have hta : ((c :: ls).takeWhile Char.isDigit).all Char.isDigit = true :=
        List.all_takeWhile
      cases hr : (c :: ls).dropWhile Char.isDigit with
      | nil =>
        rw [hr] at h
        try simp only [] at h
        injection h with h
        injection h with h1 h2
        exact Or.inl (h1 ▸ ⟨htw, hta⟩)
      | cons sep r2 =>
        rw [hr] at h
        try simp only [] at h
        by_cases hsep : sep = '.' ∨ sep = ','
        · rw [if_pos hsep] at h
          cases r2 with
          | nil =>
            simp only [] at h
            injection h with h
            injection h with h1 h2
            exact Or.inl (h1 ▸ ⟨htw, hta⟩)
          | cons d r3 =>
            simp only [] at h
            by_cases hd : d.isDigit = true
            · rw [if_pos hd] at h
              injection h with h
              injection h with h1 h2
              refine Or.inr ⟨(c :: ls).takeWhile Char.isDigit, sep,
                (d :: r3).takeWhile Char.isDigit, h1.symm, hsep, htw, ?_, hta,
                List.all_takeWhile⟩
              rw [List.takeWhile_cons, if_pos hd]
              simp
            · rw [if_neg hd] at h
              injection h with h
              injection h with h1 h2
              exact Or.inl (h1 ▸ ⟨htw, hta⟩)
        · rw [if_neg hsep] at h
          injection h with h
          injection h with h1 h2
          exact Or.inl (h1 ▸ ⟨htw, hta⟩)
    · simp only [if_neg hc] at h
      exact absurd h (by simp)

theorem resolveDecimalLocale_ok {num : List Char} (h : NumShape num) :
    ∃ r, resolveDecimalLocale num = Except.ok r := by
  have hnospace : ∀ {ds : List Char}, ds.all Char.isDigit = true →
      ∀ c ∈ ds, c ≠ ' ' := by
    intro ds hall c hm he
    have := List.all_eq_true.mp hall _ hm
    subst he
    simp at this
  rcases h with ⟨hne, hall⟩ | ⟨d1, sep, d2, rfl, hsep, h1, h2, ha1, ha2⟩
  · have hfil : num.filter (fun c => c ≠ ' ') = num :=
      List.filter_eq_self.mpr (fun a ha => by
        simpa using hnospace hall a ha)
    have hnc : ¬ (num.contains ',') = true := by
      rw [List.elem_iff]
      exact not_mem_of_all_digit (by decide) hall
    unfold resolveDecimalLocale resolveCleaned
    rw [hfil, if_neg hnc, decOfString_digits hne hall]
    exact ⟨_, rfl⟩
  · have hfil : (d1 ++ sep :: d2).filter (fun c => c ≠ ' ') =
        d1 ++ sep :: d2 := by
      refine List.filter_eq_self.mpr (fun a ha => ?_)
      rcases List.mem_append.mp ha with ha | ha
      · simpa using hnospace ha1 a ha
      · rcases List.mem_cons.mp ha with rfl | ha
        · rcases hsep with rfl | rfl <;> decide
        · simpa using hnospace ha2 a ha
    rcases hsep with rfl | rfl
    · have hnc : ¬ ((d1 ++ '.' :: d2).contains ',') = true := by
        rw [List.elem_iff]
        intro hm
        rcases List.mem_append.mp hm with hm | hm
        · exact not_mem_of_all_digit (by decide) ha1 hm
        · rcases List.mem_cons.mp hm with hm | hm
          · exact absurd hm (by decide)
          · exact not_mem_of_all_digit (by decide) ha2 hm
      unfold resolveDecimalLocale resolveCleaned
      rw [hfil, if_neg hnc, decOfString_point ha1 ha2
        (fun he => h1 (List.append_eq_nil.mp he).1)]
      exact ⟨_, rfl⟩
    · have hcont : ((d1 ++ ',' :: d2).contains ',') = true := by
        rw [List.elem_iff]
        simp
      have hsplit : splitOnChar ',' (d1 ++ ',' :: d2) = [d1, d2] := by
        rw [splitOnChar_sep_append (not_mem_of_all_digit (by decide) ha1),
          splitOnChar_not_mem (not_mem_of_all_digit (by decide) ha2)]
      have happne : d1 ++ d2 ≠ [] :=
        fun he => h1 (List.append_eq_nil.mp he).1
      unfold resolveDecimalLocale resolveCleaned
      rw [hfil, if_pos hcont, hsplit]
      show ∃ r, resolveTwoParts (d1 ++ ',' :: d2) d1 d2 = Except.ok r
      unfold resolveTwoParts
      by_cases hl3 : d2.length = 3 ∧ d2.all Char.isDigit = true
      · rw [if_pos hl3,
          decOfString_digits happne (by simp [List.all_append, ha1, ha2])]
        exact ⟨_, rfl⟩
      · rw [if_neg hl3]
        by_cases hl12 : d2.length = 1 ∨ d2.length = 2
        · rw [if_pos hl12, decOfString_point ha1 ha2 happne]
          exact ⟨_, rfl⟩
        · rw [if_neg hl12]
          have hlen1 : 1 ≤ d2.length := by
            cases d2 with
            | nil => exact absurd rfl h2
            | cons x xs => simp
          have hl4 : 4 ≤ d2.length := by
            have hne3 : d2.length ≠ 3 := fun he => hl3 ⟨he, ha2⟩
            omega
          rw [if_pos hl4, decOfString_point ha1 ha2 happne]
          exact ⟨_, rfl⟩

theorem inlineDoseSearch_num {l : List Char} {m : DoseMatch}
    (h : inlineDoseSearch l = some m) :
    ∃ l' rest, matchNumAt l' = some (m.num, rest) := by
  unfold inlineDoseSearch at h
  suffices hgen : ∀ (acc l' : List Char),
      inlineDoseSearchAux acc l' = some m →
      ∃ l'' rest, matchNumAt l'' = some (m.num, rest) from hgen [] l h
  intro acc l'
  induction l' generalizing acc with
  | nil => intro h'; simp [inlineDoseSearchAux] at h'
  | cons c rest ih =>
    intro h'
    rw [inlineDoseSearchAux] at h'
    cases hn : matchNumAt (c :: rest) with
    | none =>
      rw [hn] at h'
      exact ih _ h'
    | some nr =>
      obtain ⟨num, r1⟩ := nr
      rw [hn] at h'
      simp only [] at h'
      cases hu : matchInlineUnitAt (r1.dropWhile isWs) with
      | none =>
        rw [hu] at h'
        exact ih _ h'
      | some ur =>
        obtain ⟨u, r3⟩ := ur
        rw [hu] at h'
        simp only [] at h'
        injection h' with h'
        exact ⟨c :: rest, r1, by rw [← h']; exact hn⟩

theorem parseInlineDose_ok (s : List Char) :
    ∃ r, parseInlineDose s = Except.ok r := by
  unfold parseInlineDose
  cases hm : inlineDoseSearch s with
  | none => exact ⟨_, rfl⟩
  | some m =>
    obtain ⟨l', rest, hnum⟩ := inlineDoseSearch_num hm
    obtain ⟨r, hr⟩ := resolveDecimalLocale_ok (matchNumAt_shape hnum)
    obtain ⟨v, w⟩ := r
    simp only []
    rw [hr]
    exact ⟨_, rfl⟩

theorem bracketRatioFullmatch_num {l n1 u1 n2 u2 : List Char}
    (h : bracketRatioFullmatch l = some (n1, u1, n2, u2)) :
    NumShape n1 ∧ NumShape n2 := by
  unfold bracketRatioFullmatch at h
  cases hn1 : matchNumAt l with
  | none => rw [hn1] at h; simp at h
  | some p1 =>
    obtain ⟨m1, r1⟩ := p1
    rw [hn1] at h
    try simp only [] at h
    cases hu1 : matchRatioUnitAt ratioUnit1Alts (r1.dropWhile isWs) with
    | none => rw [hu1] at h; simp at h
    | some q1 =>
      obtain ⟨mu1, r3⟩ := q1
      rw [hu1] at h
      try simp only [] at h
      cases hsl : r3.dropWhile isWs with
      | nil => rw [hsl] at h; simp at h
      | cons sc r5 =>
        rw [hsl] at h
        try simp only [] at h
        by_cases hslash : sc = '/'
        · rw [if_pos hslash] at h
          cases hn2 : matchNumAt (r5.dropWhile isWs) with
          | none => rw [hn2] at h; simp at h
          | some p2 =>
            obtain ⟨m2, r7⟩ := p2
            rw [hn2] at h
            try simp only [] at h
            cases hu2 : matchRatioUnitAt ratioUnit2Alts (r7.dropWhile isWs) with
            | none => rw [hu2] at h; simp at h
            | some q2 =>
              obtain ⟨mu2, r9⟩ := q2
              rw [hu2] at h
              try simp only [] at h
              cases r9 with
              | nil =>
                simp only [Option.some.injEq, Prod.mk.injEq] at h
                obtain ⟨e1, e2, e3, e4⟩ := h
                subst e1; subst e3
                exact ⟨matchNumAt_shape hn1, matchNumAt_shape hn2⟩
              | cons x xs => simp at h
        · rw [if_neg hslash] at h
          simp at h


theorem parseBracketConcentration_ok (s : List Char) :
    ∃ r, parseBracketConcentration s = Except.ok r := by
  unfold parseBracketConcentration
  cases hm : bracketRatioFullmatch (strip s) with
  | none =>
    cases hi : inlineDoseSearch s with
    | none => exact ⟨_, rfl⟩
    | some m =>
      obtain ⟨l', rest, hnum⟩ := inlineDoseSearch_num hi
      obtain ⟨⟨v, w⟩, hr⟩ := resolveDecimalLocale_ok (matchNumAt_shape hnum)
      simp only []
      rw [hr]
      exact ⟨_, rfl⟩
  | some q =>
    obtain ⟨n1, u1, n2, u2⟩ := q
    obtain ⟨s1, s2⟩ := bracketRatioFullmatch_num hm
    obtain ⟨⟨v1, w1⟩, hr1⟩ := resolveDecimalLocale_ok s1
    obtain ⟨⟨v2, w2⟩, hr2⟩ := resolveDecimalLocale_ok s2
    simp only []
    rw [hr1]
    simp only []
    rw [hr2]
    simp only []
    by_cases hz : v2.isZero = true
    · rw [if_pos hz]; exact ⟨_, rfl⟩
    · rw [if_neg hz]; exact ⟨_, rfl⟩

theorem collectInline_ok (ds : List (List Char)) :
    ∃ r, collectInline ds = Except.ok r := by
  induction ds with
  | nil => exact ⟨_, rfl⟩
  | cons d rest ih =>
    obtain ⟨⟨oc, w⟩, hd⟩ := parseInlineDose_ok d
    obtain ⟨⟨cs, ws⟩, hrest⟩ := ih
    rw [collectInline, hd, hrest]
    exact ⟨_, rfl⟩

theorem collectBracket_ok (bs : List (List Char)) :
    ∃ r, collectBracket bs = Except.ok r := by
  induction bs with
  | nil => exact ⟨_, rfl⟩
  | cons b rest ih =>
    obtain ⟨⟨oc, w⟩, hb⟩ := parseBracketConcentration_ok b
    obtain ⟨⟨cs, ws⟩, hrest⟩ := ih
    rw [collectBracket, hb, hrest]
    exact ⟨_, rfl⟩

/-! ## Claim C8 -/

/-- C8: parse returns a ParsedDrug for every input string, including empty
and whitespace-only inputs: the Except layer that carries the unguarded
Decimal constructions never reaches the error branch, because every number
capture of the dose regexes is a valid literal; all error conditions are
reported through the parse_warnings field of the returned value. -/
theorem parseAssemble_ok (raw sanitized afterForm : List Char)
    (rawForm : Option (List Char))
    (bracketContents parenContents innParts doseParts : List (List Char)) :
    ∃ p, parseAssemble raw sanitized afterForm rawForm bracketContents
      parenContents innParts doseParts = Except.ok p := by
  unfold parseAssemble
  split
  · next e heq =>
    obtain ⟨r, hr⟩ := collectInline_ok _
    rw [hr] at heq
    exact absurd heq (by simp)
  · next pr heq =>
    split
    · next e heq2 =>
      obtain ⟨r, hr⟩ := collectBracket_ok _
      rw [hr] at heq2
      exact absurd heq2 (by simp)
    · exact ⟨_, rfl⟩

theorem parseCore_ok (raw sanitized : List Char) :
    ∃ p, parseCore raw sanitized = Except.ok p := by
  unfold parseCore
  split
  next ad bc pc heq =>
  split
  next af rf heq2 =>
  exact parseAssemble_ok _ _ _ _ _ _ _ _

/-- C8: parse returns a ParsedDrug for every input string, including empty
and whitespace-only inputs: the Except layer that carries the unguarded
Decimal constructions never reaches the error branch, because every number
capture of the dose regexes is a valid literal; all error conditions are
reported through the parse_warnings field of the returned value. -/
theorem c8_parse_total (raw : List Char) : ∃ p, parse raw = Except.ok p := by
  simp only [parse]
  split
  · exact ⟨_, rfl⟩
  · exact parseCore_ok _ _

/-! ## Character normalization lemmas for claim C3 -/

theorem toNat_ofNat_of_lt {n : Nat} (h : n < 55296) :
    (Char.ofNat n).toNat = n := by
  unfold Char.ofNat
  rw [dif_pos (Or.inl h)]
  rfl

theorem charLookup_none_of_forall {ps : List (Char × Char)} {c : Char}
    (h : ∀ p ∈ ps, c ≠ p.1) : charLookup ps c = none := by
  induction ps with
  | nil => rfl
  | cons p rest ih =>
    obtain ⟨k, v⟩ := p
    rw [show charLookup ((k, v) :: rest) c =
      if c = k then some v else charLookup rest c from rfl]
    rw [if_neg (h (k, v) (List.mem_cons_self _ _))]
    exact ih (fun q hq => h q (List.mem_cons_of_mem _ hq))

theorem char_ne_of_toNat_ne {c d : Char} (h : c.toNat ≠ d.toNat) : c ≠ d :=
  fun he => h (he ▸ rfl)

theorem accentLookup_none_of_ascii {c : Char} (h : c.toNat ≤ 127) :
    charLookup accentPairs c = none := by
  refine charLookup_none_of_forall (fun p hp => ?_)
  have hall : ∀ p ∈ accentPairs, 127 < p.1.toNat := by decide
  exact char_ne_of_toNat_ne (by have := hall p hp; omega)

theorem foldLookup_none_of_ascii {c : Char} (h : c.toNat ≤ 127) :
    charLookup foldPairs c = none := by
  refine charLookup_none_of_forall (fun p hp => ?_)
  have hall : ∀ p ∈ foldPairs, 127 < p.1.toNat := by decide
  exact char_ne_of_toNat_ne (by have := hall p hp; omega)

theorem lowerChar_of_upper {c : Char} (h : 65 ≤ c.toNat ∧ c.toNat ≤ 90) :
    lowerChar c = Char.ofNat (c.toNat + 32) := by
  unfold lowerChar
  rw [if_pos h]

theorem lowerChar_of_not_upper {c : Char} (h : ¬ (65 ≤ c.toNat ∧ c.toNat ≤ 90))
    (h2 : charLookup accentPairs c = none) : lowerChar c = c := by
  unfold lowerChar
  rw [if_neg h, h2]

theorem lowerChar_ascii {c : Char} (h : c.toNat ≤ 127) :
    (lowerChar c).toNat ≤ 127 := by
  by_cases hu : 65 ≤ c.toNat ∧ c.toNat ≤ 90
  · rw [lowerChar_of_upper hu, toNat_ofNat_of_lt (by omega)]
    omega
  · rw [lowerChar_of_not_upper hu (accentLookup_none_of_ascii h)]
    exact h

theorem lower_lower (c : Char) : lowerChar (lowerChar c) = lowerChar c := by
  by_cases hu : 65 ≤ c.toNat ∧ c.toNat ≤ 90
  · rw [lowerChar_of_upper hu]
    have ht : (Char.ofNat (c.toNat + 32)).toNat = c.toNat + 32 :=
      toNat_ofNat_of_lt (by omega)
    rw [lowerChar_of_not_upper (by omega)
      (accentLookup_none_of_ascii (by omega))]
  · by_cases ha : c.toNat ≤ 127
    · rw [lowerChar_of_not_upper hu (accentLookup_none_of_ascii ha),
        lowerChar_of_not_upper hu (accentLookup_none_of_ascii ha)]
    · cases hl : charLookup accentPairs c with
      | none =>
        rw [lowerChar_of_not_upper hu hl, lowerChar_of_not_upper hu hl]
      | some d =>
        have hcl : lowerChar c = d := by
          unfold lowerChar
          rw [if_neg hu, hl]
        rw [hcl]
        have hmem := charLookup_mem hl
        have : ∀ p ∈ accentPairs, lowerChar p.2 = p.2 := by decide
        exact this _ hmem

theorem foldChar_ascii {c : Char} (h : c.toNat ≤ 127) : foldChar c = some c := by
  unfold foldChar
  rw [if_pos h]

theorem foldChar_out_ascii {c d : Char} (h : foldChar c = some d) :
    d.toNat ≤ 127 := by
  unfold foldChar at h
  by_cases ha : c.toNat ≤ 127
  · rw [if_pos ha] at h
    injection h with h
    subst h
    exact ha
  · rw [if_neg ha] at h
    have hmem := charLookup_mem h
    have : ∀ p ∈ foldPairs, p.2.toNat ≤ 127 := by decide
    exact this _ hmem

theorem fold_lower (c : Char) :
    foldChar (lowerChar c) = (foldChar c).map lowerChar := by
  by_cases ha : c.toNat ≤ 127
  · rw [foldChar_ascii ha, foldChar_ascii (lowerChar_ascii ha)]
    rfl
  · have hu : ¬ (65 ≤ c.toNat ∧ c.toNat ≤ 90) := by omega
    cases hl : charLookup accentPairs c with
    | some d =>
      have hcl : lowerChar c = d := by
        unfold lowerChar
        rw [if_neg hu, hl]
      rw [hcl]
      have hmem := charLookup_mem hl
      have : ∀ p ∈ accentPairs,
          foldChar p.2 = (foldChar p.1).map lowerChar := by decide
      exact this _ hmem
    | none =>
      rw [lowerChar_of_not_upper hu hl]
      unfold foldChar
      rw [if_neg ha]
      cases hf : charLookup foldPairs c with
      | none => rfl
      | some e =>
        have hmem := charLookup_mem hf
        have hfact : ∀ p ∈ foldPairs,
            charLookup accentPairs p.1 = none → lowerChar p.2 = p.2 := by
          decide
        simp [Option.map_some, hfact _ hmem hl]

theorem isWs_lower (c : Char) : isWs (lowerChar c) = isWs c := by
  by_cases hu : 65 ≤ c.toNat ∧ c.toNat ≤ 90
  · rw [lowerChar_of_upper hu]
    have ht : (Char.ofNat (c.toNat + 32)).toNat = c.toNat + 32 :=
      toNat_ofNat_of_lt (by omega)
    have hws : ∀ d : Char, 64 < d.toNat → isWs d = false := by
      intro d hd
      unfold isWs Char.isWhitespace
      have h1 : d ≠ ' ' := char_ne_of_toNat_ne (by simp; omega)
      have h2 : d ≠ '\t' := char_ne_of_toNat_ne (by simp; omega)
      have h3 : d ≠ '\r' := char_ne_of_toNat_ne (by simp; omega)
      have h4 : d ≠ '\n' := char_ne_of_toNat_ne (by simp; omega)
      simp [h1, h2, h3, h4]
    rw [hws _ (by omega), hws _ (by omega)]
  · cases hl : charLookup accentPairs c with
    | none => rw [lowerChar_of_not_upper hu hl]
    | some d =>
      have hcl : lowerChar c = d := by
        unfold lowerChar
        rw [if_neg hu, hl]
      rw [hcl]
      have hmem := charLookup_mem hl
      have : ∀ p ∈ accentPairs, isWs p.2 = isWs p.1 := by decide
      exact this _ hmem

/-! ## String normalization lemmas for claim C3 -/

theorem lowerL_lowerL (l : List Char) : lowerL (lowerL l) = lowerL l := by
  unfold lowerL
  rw [List.map_map, show lowerChar ∘ lowerChar = lowerChar from funext lower_lower]

theorem foldL_lowerL (l : List Char) : foldL (lowerL l) = lowerL (foldL l) := by
  unfold foldL lowerL
  rw [List.filterMap_map, List.map_filterMap]
  apply List.filterMap_congr
  intro c _
  exact fold_lower c

theorem lstrip_lowerL (l : List Char) : lstrip (lowerL l) = lowerL (lstrip l) := by
  unfold lstrip lowerL
  rw [List.dropWhile_map, show isWs ∘ lowerChar = isWs from funext isWs_lower]

theorem rstrip_lowerL (l : List Char) : rstrip (lowerL l) = lowerL (rstrip l) := by
  unfold rstrip lowerL
  rw [← List.map_reverse, List.dropWhile_map,
    show isWs ∘ lowerChar = isWs from funext isWs_lower, List.map_reverse]

theorem strip_lowerL (l : List Char) : strip (lowerL l) = lowerL (strip l) := by
  unfold strip
  rw [lstrip_lowerL, rstrip_lowerL]

theorem lstrip_idem (l : List Char) : lstrip (lstrip l) = lstrip l :=
  List.dropWhile_idempotent _ _

theorem rstrip_idem (l : List Char) : rstrip (rstrip l) = rstrip l := by
  unfold rstrip
  rw [List.reverse_reverse, List.dropWhile_idempotent]

theorem rstrip_cons (c : Char) (rest : List Char) :
    rstrip (c :: rest) =
      if (rstrip rest).isEmpty then (if isWs c then [] else [c])
      else c :: rstrip rest := by
  unfold rstrip
  rw [show (c :: rest).reverse = rest.reverse ++ [c] from by simp,
    List.dropWhile_append]
  by_cases he : (List.dropWhile isWs rest.reverse).isEmpty
  · rw [if_pos he, if_pos (by simpa using he)]
    by_cases hc : isWs c
    · simp [List.dropWhile_cons, hc]
    · simp [List.dropWhile_cons, hc]
  · rw [if_neg he, if_neg (by simpa using he)]
    simp

theorem lstrip_rstrip (l : List Char) : lstrip (rstrip l) = rstrip (lstrip l) := by
  induction l with
  | nil => rfl
  | cons c rest ih =>
    by_cases hc : isWs c
    · have hls : lstrip (c :: rest) = lstrip rest := by
        unfold lstrip
        simp [List.dropWhile_cons, hc]
      rw [hls, rstrip_cons]
      by_cases he : (rstrip rest).isEmpty
      · rw [if_pos he, if_pos hc]
        have hre : rstrip rest = [] := by simpa [List.isEmpty_iff] using he
        rw [← ih, hre]
      · rw [if_neg he]
        have : lstrip (c :: rstrip rest) = lstrip (rstrip rest) := by
          unfold lstrip
          simp [List.dropWhile_cons, hc]
        rw [this, ih]
    · have hls : lstrip (c :: rest) = c :: rest := by
        unfold lstrip
        simp [List.dropWhile_cons, hc]
      rw [hls, rstrip_cons]
      by_cases he : (rstrip rest).isEmpty
      · rw [if_pos he, if_neg hc]
        unfold lstrip
        simp [List.dropWhile_cons, hc]
      · rw [if_neg he]
        unfold lstrip
        simp [List.dropWhile_cons, hc]

theorem strip_idem (l : List Char) : strip (strip l) = strip l := by
  unfold strip
  rw [lstrip_rstrip, lstrip_idem, rstrip_idem]

theorem strip_subset {c : Char} {l : List Char} (h : c ∈ strip l) : c ∈ l := by
  unfold strip rstrip lstrip at h
  have h1 := (List.dropWhile_sublist _).subset (List.mem_reverse.mp h)
  exact (List.dropWhile_sublist _).subset (List.mem_reverse.mp h1)

theorem foldL_ascii_id {l : List Char} (h : ∀ c ∈ l, c.toNat ≤ 127) :
    foldL l = l := by
  induction l with
  | nil => rfl
  | cons c rest ih =>
    unfold foldL
    rw [List.filterMap_cons, foldChar_ascii (h c (List.mem_cons_self _ _))]
    rw [show List.filterMap foldChar rest = foldL rest from rfl,
      ih (fun d hd => h d (List.mem_cons_of_mem _ hd))]

theorem foldL_out_ascii {l : List Char} : ∀ c ∈ foldL l, c.toNat ≤ 127 := by
  intro c hc
  obtain ⟨a, _, ha⟩ := List.mem_filterMap.mp hc
  exact foldChar_out_ascii ha

theorem lowerL_out_ascii {l : List Char} (h : ∀ c ∈ l, c.toNat ≤ 127) :
    ∀ c ∈ lowerL l, c.toNat ≤ 127 := by
  intro c hc
  obtain ⟨a, ha, rfl⟩ := List.mem_map.mp hc
  exact lowerChar_ascii (h a ha)

/-- The string passed by normalizeDbForm to layer 3 is a fixed point of the
fold, strip and lower normalizations, and it equals the layer-3
normalization body of the lowercased original. -/
theorem dbForm_key_fix (forma : List Char) :
    foldL (lowerL (strip (foldL forma))) = lowerL (strip (foldL forma)) ∧
    strip (lowerL (strip (foldL forma))) = lowerL (strip (foldL forma)) ∧
    lowerL (lowerL (strip (foldL forma))) = lowerL (strip (foldL forma)) ∧
    lowerL (strip (foldL forma)) = strip (foldL (lowerL forma)) := by
  refine ⟨?_, ?_, lowerL_lowerL _, ?_⟩
  · exact foldL_ascii_id (lowerL_out_ascii (fun c hc =>
      foldL_out_ascii c (strip_subset hc)))
  · rw [← strip_lowerL, strip_idem, strip_lowerL]
  · rw [← strip_lowerL, ← foldL_lowerL]

/-! ## Layer-3 group lemmas for claim C3 -/

/-- Decidable facts about the canonical values of the form synonym table:
nonempty, fixed points of the layer-3 key normalization, and mapped to
themselves by the table. -/
theorem formSynonyms_canonical_fix :
    ∀ p ∈ formSynonyms, p.2 ≠ [] ∧
      collapseWs1 (lowerL (strip (foldL p.2))) = p.2 ∧
      assocLookup formSynonyms p.2 = some p.2 := by decide

/-- The group component of layer 3 is determined by the normalized key. -/
theorem layer3_group_key (rf : List Char) (hne : rf ≠ []) :
    ((layer3NormalizeForm (some rf)).1).2 =
      (match assocLookup formSynonyms (collapseWs1 (lowerL (strip (foldL rf)))) with
       | none => some FormGroup.OTHER
       | some canonical =>
         some ((assocLookup formGroupTable canonical).getD FormGroup.OTHER)) := by
  simp only [layer3NormalizeForm]
  rw [if_neg hne]
  cases assocLookup formSynonyms (collapseWs1 (lowerL (strip (foldL rf)))) with
  | none => rfl
  | some canonical => rfl

/-- Layer 3 on a nonempty string yields either a recognized or an OTHER
pair, always with both components present. -/
theorem layer3_shape (rf : List Char) (hne : rf ≠ []) :
    ∃ cf gr, (layer3NormalizeForm (some rf)).1 = (some cf, some gr) ∧
      cf ≠ [] := by
  simp only [layer3NormalizeForm]
  rw [if_neg hne]
  cases hlook : assocLookup formSynonyms
      (collapseWs1 (lowerL (strip (foldL rf)))) with
  | none => exact ⟨rf, FormGroup.OTHER, rfl, hne⟩
  | some canonical =>
    exact ⟨canonical, _, rfl,
      (formSynonyms_canonical_fix _ (assocLookup_mem hlook)).1⟩

/-- The group layer 3 assigns to the canonical form it returned equals the
group it assigned to the raw form. -/
theorem layer3_group_canonical {rf cf : List Char} {g : FormGroup}
    (hne : rf ≠ [])
    (h : (layer3NormalizeForm (some rf)).1 = (some cf, some g)) :
    ((layer3NormalizeForm (some cf)).1).2 = some g := by
  simp only [layer3NormalizeForm] at h
  rw [if_neg hne] at h
  cases hlook : assocLookup formSynonyms
      (collapseWs1 (lowerL (strip (foldL rf)))) with
  | none =>
    rw [hlook] at h
    simp only [Prod.mk.injEq, Option.some.injEq] at h
    obtain ⟨h1, h2⟩ := h
    subst h1
    rw [layer3_group_key _ hne, hlook]
    exact congrArg some h2
  | some canonical =>
    rw [hlook] at h
    simp only [Prod.mk.injEq, Option.some.injEq] at h
    obtain ⟨h1, h2⟩ := h
    subst h1
    obtain ⟨hcne, hckey, hclook⟩ :=
      formSynonyms_canonical_fix _ (assocLookup_mem hlook)
    rw [layer3_group_key _ hcne, hckey, hclook]
    exact congrArg some h2

/-- The group a catalog form normalizes to is absent or equals the group
layer 3 assigns to the lowercased form string. -/
theorem normalizeDbForm_group (forma : List Char) (hne : forma ≠ []) :
    (normalizeDbForm (some forma)).2 = none ∨
    (normalizeDbForm (some forma)).2 =
      ((layer3NormalizeForm (some (lowerL forma))).1).2 := by
  obtain ⟨hf, hs, hl, hx⟩ := dbForm_key_fix forma
  simp only [normalizeDbForm]
  rw [if_neg hne]
  by_cases hxe : lowerL (strip (foldL forma)) = []
  · left
    rw [hxe]
    simp [layer3NormalizeForm]
  · right
    have hlf : lowerL forma ≠ [] := by
      intro he
      exact hne (List.map_eq_nil.mp he)
    rw [layer3_group_key _ hxe, layer3_group_key _ hlf]
    rw [hf, hs, hl]
    rw [foldL_lowerL, strip_lowerL, lowerL_lowerL]

/-! ## Matcher stage lemmas for claim C3 -/

theorem stage1Exact_forma {db : Db} {drug : ParsedDrug} {innQuery : List Char}
    {row : CatalogRow} (h : stage1Exact db drug innQuery = some row) :
    lowerL (row.forma_farmaceutica.getD []) = drug.canonical_form.getD [] := by
  simp only [stage1Exact] at h
  have hmem := List.mem_of_find?_eq_some h
  have hmem2 := (List.take_sublist 10 _).subset hmem
  have hmem3 := List.mem_filter.mp hmem2
  have hp := hmem3.2
  simp only [decide_eq_true_eq] at hp
  exact hp.2.1

theorem stage2Fuzzy_mem {db : Db} {drug : ParsedDrug} {innQuery : List Char}
    {rs : CatalogRow × Dec} (h : stage2Fuzzy db drug innQuery = some rs) :
    rs ∈ stage2Survivors db drug innQuery := by
  unfold stage2Fuzzy at h
  suffices hgen : ∀ (l : List (CatalogRow × Dec))
      (acc : Option (CatalogRow × Dec)),
      l.foldl (fun best rs =>
        match best with
        | none => if Dec.blt ⟨0, 1⟩ rs.2 then some rs else none
        | some b => if Dec.blt b.2 rs.2 then some rs else some b) acc =
        some rs →
      rs ∈ l ∨ acc = some rs by
    rcases hgen _ _ h with hm | hm
    · exact hm
    · exact absurd hm (by simp)
  intro l
  induction l with
  | nil => intro acc h'; exact Or.inr h'
  | cons x xs ih =>
    intro acc h'
    rw [List.foldl_cons] at h'
    rcases ih _ h' with hm | hm
    · exact Or.inl (List.mem_cons_of_mem _ hm)
    · cases acc with
      | none =>
        simp only [] at hm
        by_cases hb : Dec.blt ⟨0, 1⟩ x.2 = true
        · rw [if_pos hb] at hm
          injection hm with hm
          exact Or.inl (hm ▸ List.mem_cons_self _ _)
        · rw [if_neg hb] at hm
          exact absurd hm (by simp)
      | some b =>
        simp only [] at hm
        by_cases hb : Dec.blt b.2 x.2 = true
        · rw [if_pos hb] at hm
          injection hm with hm
          exact Or.inl (hm ▸ List.mem_cons_self _ _)
        · rw [if_neg hb] at hm
          exact Or.inr hm

theorem stage2Survivors_barrier {db : Db} {drug : ParsedDrug}
    {innQuery : List Char} {rs : CatalogRow × Dec}
    (h : rs ∈ stage2Survivors db drug innQuery) :
    (formGroupBarrier drug.form_group rs.1.forma_farmaceutica).1 = true := by
  unfold stage2Survivors at h
  have hp := (List.mem_filter.mp h).2
  simp only [Bool.and_eq_true] at hp
  exact hp.1

theorem formGroupBarrier_group {g g' : FormGroup} {dbRaw : Option (List Char)}
    (hpass : (formGroupBarrier (some g) dbRaw).1 = true)
    (hdb : (normalizeDbForm dbRaw).2 = some g')
    (hother : g' ≠ FormGroup.OTHER) : g' = g := by
  unfold formGroupBarrier at hpass
  rw [hdb] at hpass
  simp only [] at hpass
  rw [if_neg hother] at hpass
  by_cases he : g ≠ g'
  · rw [if_pos he] at hpass
    exact absurd hpass (by decide)
  · push_neg at he
    exact he.symm

/-- Core of the Stage 1 argument: a row whose lowercased catalog form
equals the canonical form of a form-consistent parsed drug has the same
form group, whenever both groups are known. -/
theorem exact_group_eq {drug : ParsedDrug} {row : CatalogRow}
    {g g' : FormGroup}
    (hcons : (drug.canonical_form, drug.form_group) =
      (layer3NormalizeForm drug.raw_form).1)
    (hq : drug.form_group = some g)
    (hfiltro : lowerL (row.forma_farmaceutica.getD []) =
      drug.canonical_form.getD [])
    (hdb : (normalizeDbForm row.forma_farmaceutica).2 = some g')
    (hother : g' ≠ FormGroup.OTHER) : g' = g := by
  cases hrf : drug.raw_form with
  | none =>
    rw [hrf] at hcons
    have hred : (layer3NormalizeForm none).1 =
        ((none : Option (List Char)), (none : Option FormGroup)) := rfl
    rw [hred, hq, Prod.mk.injEq] at hcons
    exact absurd hcons.2 (by simp)
  | some rf =>
    rw [hrf] at hcons
    by_cases hrfe : rf = []
    · subst hrfe
      have hred : (layer3NormalizeForm (some ([] : List Char))).1 =
          ((none : Option (List Char)), (none : Option FormGroup)) := rfl
      rw [hred, hq, Prod.mk.injEq] at hcons
      exact absurd hcons.2 (by simp)
    · obtain ⟨cf, gr, hshape, hcfne⟩ := layer3_shape rf hrfe
      rw [hshape] at hcons
      rw [hq] at hcons
      simp only [Prod.mk.injEq, Option.some.injEq] at hcons
      obtain ⟨hcf, hgr⟩ := hcons
      subst hgr
      have hlay : ((layer3NormalizeForm (some cf)).1).2 = some g :=
        layer3_group_canonical hrfe hshape
      cases hforma : row.forma_farmaceutica with
      | none =>
        rw [hforma] at hfiltro
        rw [hcf] at hfiltro
        simp only [Option.getD_none, Option.getD_some] at hfiltro
        exact absurd hfiltro.symm (by simpa [lowerL] using hcfne)
      | some forma =>
        rw [hforma] at hfiltro hdb
        rw [hcf] at hfiltro
        simp only [Option.getD_some] at hfiltro
        have hfne : forma ≠ [] := by
          intro he
          subst he
          exact hcfne hfiltro.symm
        rcases normalizeDbForm_group forma hfne with hn | heq
        · rw [hn] at hdb
          exact absurd hdb (by simp)
        · rw [heq, hfiltro, hlay] at hdb
          injection hdb with hdb
          exact hdb.symm

/-! ## Claim C3 -/

/-- C3: a match returned at stage EXACT or FUZZY_INN_SAFE never crosses
administration-route groups: when the input drug is form-consistent (its
canonical form and group are the layer-3 normalization of its raw form),
its form group is known, and the matched catalog row's form normalizes to a
known group other than OTHER, the two groups coincide. -/
theorem c3_form_group_invariant (db : Db) (drug : ParsedDrug)
    (hosp : List Char) (g g' : FormGroup)
    (hcons : (drug.canonical_form, drug.form_group) =
      (layer3NormalizeForm drug.raw_form).1)
    (hst : (matchDrug db drug hosp).stage = MatchStage.EXACT ∨
      (matchDrug db drug hosp).stage = MatchStage.FUZZY_INN_SAFE)
    (hq : drug.form_group = some g)
    (hdb : (normalizeDbForm (matchDrug db drug hosp).db_forma).2 = some g')
    (hother : g' ≠ FormGroup.OTHER) : g' = g := by
  by_cases hm : drug.is_matchable = false
  · exfalso
    have : (matchDrug db drug hosp).stage = MatchStage.NO_MATCH := by
      simp [matchDrug, hm]
    rcases hst with h | h <;> rw [this] at h <;> exact absurd h (by decide)
  · cases hd : checkSynonymDict db drug.raw_input hosp with
    | some r =>
      exfalso
      have hsd := checkSynonymDict_stage hd
      have : (matchDrug db drug hosp).stage = MatchStage.SYNONYM_DICT := by
        simp only [matchDrug, if_neg hm, hd]
        exact hsd
      rcases hst with h | h <;> rw [this] at h <;> exact absurd h (by decide)
    | none =>
      cases h1 : stage1Exact db drug (buildInnQuery drug) with
      | some row =>
        have hforma : (matchDrug db drug hosp).db_forma =
            row.forma_farmaceutica := by
          simp only [matchDrug, if_neg hm, hd, h1]
        rw [hforma] at hdb
        exact exact_group_eq hcons hq (stage1Exact_forma h1) hdb hother
      | none =>
        cases h2 : stage2Fuzzy db drug (buildInnQuery drug) with
        | some rs =>
          obtain ⟨row, score⟩ := rs
          have hforma : (matchDrug db drug hosp).db_forma =
              row.forma_farmaceutica := by
            simp only [matchDrug, if_neg hm, hd, h1, h2]
          rw [hforma] at hdb
          have hpass := stage2Survivors_barrier (stage2Fuzzy_mem h2)
          rw [hq] at hpass
          exact formGroupBarrier_group hpass hdb hother
        | none =>
          exfalso
          have : (matchDrug db drug hosp).stage = MatchStage.NO_MATCH := by
            simp only [matchDrug, if_neg hm, hd, h1, h2]
          rcases hst with h | h <;> rw [this] at h <;>
            exact absurd h (by decide)

/-- C3 witness: a form-consistent tablet input matched EXACT against a
tablet catalog row. -/
theorem c3_form_group_witness :
    ((⟨"acetaminofen 325mg tableta".data,
       [⟨"acetaminofen".data, "acetaminofen".data, []⟩],
       [⟨"325mg".data, ⟨325, 1⟩, "mg".data, ConcEncoding.inline⟩],
       some "tableta".data, some "tableta".data,
       some FormGroup.ORAL_SOLID, []⟩ : ParsedDrug).canonical_form,
     (⟨"acetaminofen 325mg tableta".data,
       [⟨"acetaminofen".data, "acetaminofen".data, []⟩],
       [⟨"325mg".data, ⟨325, 1⟩, "mg".data, ConcEncoding.inline⟩],
       some "tableta".data, some "tableta".data,
       some FormGroup.ORAL_SOLID, []⟩ : ParsedDrug).form_group) =
      (layer3NormalizeForm (some "tableta".data)).1 ∧
    FormGroup.ORAL_SOLID = FormGroup.ORAL_SOLID := by
  refine ⟨by decide, ?_⟩
  exact (c3_form_group_invariant
    ⟨[⟨1, some "111-01".data, some "acetaminofen".data,
       some "tableta".data, none, some "325mg".data, true⟩],
     fun _ _ => ⟨9, 10⟩, []⟩
    ⟨"acetaminofen 325mg tableta".data,
     [⟨"acetaminofen".data, "acetaminofen".data, []⟩],
     [⟨"325mg".data, ⟨325, 1⟩, "mg".data, ConcEncoding.inline⟩],
     some "tableta".data, some "tableta".data,
     some FormGroup.ORAL_SOLID, []⟩
    "H".data FormGroup.ORAL_SOLID FormGroup.ORAL_SOLID
    (by decide) (Or.inl (by decide)) (by decide) (by decide)
    (by decide)).symm

end Meds
